import Mathlib

/-!
Verification development for the KernelCI API model definitions
(`kernelci/api/models.py`).  The Python source is shallowly embedded:

* the query-parameter translation layer (`Node._translate_operators`,
  `Node._translate_object_ids`, `Node._translate_timestamps`,
  `Node.translate_fields`) operates on Python dicts, embedded here as
  insertion-ordered association lists `List (String × Value)`;
* the node lifecycle state machine (`Node.validate_node_state_transition`);
* the regression synthesizer (`Regression.create_regression`);
* the kind dispatcher (`parse_node_obj`).

Python exceptions are embedded as `Except` errors.
-/

namespace KernelCI

/-- Embedded naive `datetime` value (as produced by `datetime.fromisoformat`
on timezone-free input).  Python compares naive datetimes field by field,
lexicographically. -/
structure DateTime where
  year : Nat
  month : Nat
  day : Nat
  hour : Nat
  minute : Nat
  second : Nat
deriving DecidableEq, Repr

/-- Python `datetime.__lt__` on naive datetimes: lexicographic comparison of
the components. -/
def DateTime.ltb (a b : DateTime) : Bool :=
  if a.year = b.year then
    if a.month = b.month then
      if a.day = b.day then
        if a.hour = b.hour then
          if a.minute = b.minute then decide (a.second < b.second)
          else decide (a.minute < b.minute)
        else decide (a.hour < b.hour)
      else decide (a.day < b.day)
    else decide (a.month < b.month)
  else decide (a.year < b.year)

/-- Embedded Python runtime values as they flow through the query-translation
layer: strings, numbers, booleans, `None`, `datetime` objects, `ObjectId`
instances (carrying their 24-hex-digit string form), dicts and lists. -/
inductive Value where
  | vnone : Value
  | str : String → Value
  | int : Int → Value
  | bool : Bool → Value
  | dt : DateTime → Value
  | oid : String → Value
  | dict : List (String × Value) → Value
  | list : List Value → Value

/-- Python truthiness (`bool(v)`) for the embedded values. -/
def truthy : Value → Bool
  | .vnone => false
  | .str s => s ≠ ""
  | .int n => n ≠ 0
  | .bool b => b
  | .dt _ => true
  | .oid _ => true
  | .dict d => !d.isEmpty
  | .list l => !l.isEmpty

/-- Embedded Python exceptions raised inside the translation layer. -/
inductive PyErr where
  | typeError : PyErr
  | valueError : PyErr
  | attributeError : PyErr
  | invalidId : PyErr
deriving DecidableEq, Repr

/-- Python `d.get(k)` / `d[k]` on an insertion-ordered dict: the value of the
first (and, in a real dict, only) entry with key `k`. -/
def pyGet : List (String × Value) → String → Option Value
  | [], _ => none
  | kv :: rest, k => if kv.1 = k then some kv.2 else pyGet rest k

/-- Python `d[k] = v`: replace the value of an existing entry in place,
otherwise append a new entry at the end (insertion order). -/
def pySet : List (String × Value) → String → Value → List (String × Value)
  | [], k, v => [(k, v)]
  | kv :: rest, k, v => if kv.1 = k then (k, v) :: rest else kv :: pySet rest k v

/-- Python `d.update(pairs)`: assign each pair in order. -/
def dictUpdate (d : List (String × Value)) (ps : List (String × Value)) :
    List (String × Value) :=
  ps.foldl (fun acc kv => pySet acc kv.1 kv.2) d

/-! ### `str.split('__')`

`Node._translate_operators` keys are split with Python `key.split('__')`:
non-overlapping occurrences of the two-character separator, scanned left to
right.  Embedded directly on the character list. -/

/-- Accumulator-based scanner for `split('__')`: `acc` holds the reversed
characters of the part being built; a part ends at each non-overlapping
occurrence of two consecutive underscores. -/
def splitUUAux : List Char → List Char → List (List Char)
  | [], acc => [acc.reverse]
  | [c], acc => [(c :: acc).reverse]
  | c1 :: c2 :: rest, acc =>
    if c1 = '_' ∧ c2 = '_' then acc.reverse :: splitUUAux rest []
    else splitUUAux (c2 :: rest) (c1 :: acc)

/-- Python `s.split('__')`. -/
def pySplitUU (s : String) : List String :=
  (splitUUAux s.data []).map (fun l => ⟨l⟩)

/-! ### Identifier and timestamp coercion

`datetime.fromisoformat` and `bson.ObjectId` are Python stdlib/library
functions used by the translation layer; they are embedded on the subset of
inputs the service exchanges. -/

/-- Split a character list at every occurrence of a single separator
character (Python `str.split(sep)` for a one-character separator). -/
def splitCharAux (sep : Char) : List Char → List Char → List (List Char)
  | [], acc => [acc.reverse]
  | c :: rest, acc =>
    if c = sep then acc.reverse :: splitCharAux sep rest []
    else splitCharAux sep rest (c :: acc)

/-- Numeric value of a list of decimal digit characters. -/
def digitsToNat (l : List Char) : Nat :=
  l.foldl (fun n c => n * 10 + (c.toNat - 48)) 0

/-- True when the list is non-empty and all characters are decimal digits. -/
def allDigits (l : List Char) : Bool :=
  !l.isEmpty && l.all (·.isDigit)

/-- Parse the `YYYY-MM-DD` date part of an ISO-8601 string: three dash
separated all-digit groups of width 4, 2, 2 with in-range month and day. -/
def parseIsoDate (l : List Char) : Except PyErr (Nat × Nat × Nat) :=
  match splitCharAux '-' l [] with
  | [y, m, d] =>
    if allDigits y && y.length = 4 && allDigits m && m.length = 2 &&
        allDigits d && d.length = 2 &&
        decide (1 ≤ digitsToNat m) && decide (digitsToNat m ≤ 12) &&
        decide (1 ≤ digitsToNat d) && decide (digitsToNat d ≤ 31) then
      .ok (digitsToNat y, digitsToNat m, digitsToNat d)
    else .error .valueError
  | _ => .error .valueError

/-- Parse the `HH:MM:SS` time part of an ISO-8601 string. -/
def parseIsoTime (l : List Char) : Except PyErr (Nat × Nat × Nat) :=
  match splitCharAux ':' l [] with
  | [h, m, s] =>
    if allDigits h && h.length = 2 && allDigits m && m.length = 2 &&
        allDigits s && s.length = 2 &&
        decide (digitsToNat h ≤ 23) && decide (digitsToNat m ≤ 59) &&
        decide (digitsToNat s ≤ 59) then
      .ok (digitsToNat h, digitsToNat m, digitsToNat s)
    else .error .valueError
  | _ => .error .valueError

/-- Embedding of `datetime.fromisoformat` on the timezone-free
`YYYY-MM-DD[THH:MM:SS]` subset exchanged by the service.  A non-conforming
string raises `ValueError`; any non-string argument (including a `datetime`
produced by an earlier translation) raises `TypeError`, exactly as in
CPython (`fromisoformat: argument must be str`). -/
def fromisoformat : Value → Except PyErr Value
  | .str s =>
    match splitCharAux 'T' s.data [] with
    | [d] =>
      (parseIsoDate d).map fun t => .dt ⟨t.1, t.2.1, t.2.2, 0, 0, 0⟩
    | [d, tm] => do
      let td ← parseIsoDate d
      let tt ← parseIsoTime tm
      .ok (.dt ⟨td.1, td.2.1, td.2.2, tt.1, tt.2.1, tt.2.2⟩)
    | _ => .error .valueError
  | _ => .error .typeError

/-- True for hexadecimal digit characters. -/
def isHexDigit (c : Char) : Bool :=
  c.isDigit || ('a' ≤ c && c ≤ 'f') || ('A' ≤ c && c ≤ 'F')

/-- Embedding of `bson.ObjectId(value)`: accepts an existing `ObjectId` or a
24-hex-character string; any other string raises `InvalidId`; a non-string
value such as a dict raises `TypeError` (`id must be an instance of (bytes,
str, ObjectId)`). -/
def mkObjectId : Value → Except PyErr Value
  | .oid s => .ok (.oid s)
  | .str s =>
    if s.data.length = 24 && s.data.all isHexDigit then .ok (.oid s)
    else .error .invalidId
  | _ => .error .typeError

/-! ### 4.3 Query Translator (`Node.translate_fields` and its stages) -/

/-- The test `len(field) == 2` on `field = key.split('__')`: `some (param,
op_name)` when the key splits into exactly two parts, `none` otherwise. -/
def splitBase? (k : String) : Option (String × String) :=
  match pySplitUU k with
  | [p, o] => some (p, o)
  | _ => none

/-- One iteration of the loop in `Node._translate_operators`: split the key
on `'__'`; on an exact two-part split store `{op_name: value}` under the base
field, accumulating into an existing truthy value via `dict.update` (which
raises `AttributeError` when the stored value is not a dict); otherwise store
the value directly under the unsplit key. -/
def opStep (acc : List (String × Value)) (kv : String × Value) :
    Except PyErr (List (String × Value)) :=
  match splitBase? kv.1 with
  | some (param, op_name) =>
    match pyGet acc param with
    | some ev =>
      if truthy ev then
        match ev with
        | .dict dd => .ok (pySet acc param (.dict (pySet dd op_name kv.2)))
        | _ => .error .attributeError
      else .ok (pySet acc param (.dict [(op_name, kv.2)]))
    | none => .ok (pySet acc param (.dict [(op_name, kv.2)]))
  | none => .ok (pySet acc kv.1 kv.2)

/-- `Node._translate_operators(params)`. -/
def translate_operators (params : List (String × Value)) :
    Except PyErr (List (String × Value)) :=
  params.foldlM opStep []

/-- `Node._translate_object_ids(params)`: the generator yields
`(key, ObjectId(value))` for every entry whose key is in the class's
`OBJECT_ID_FIELDS`; here the yielded pairs are collected in order (the
caller feeds them to `dict.update`). -/
def translate_object_ids (fields : List String)
    (params : List (String × Value)) :
    Except PyErr (List (String × Value)) :=
  params.foldlM
    (fun acc kv =>
      if kv.1 ∈ fields then do
        let w ← mkObjectId kv.2
        .ok (acc ++ [(kv.1, w)])
      else .ok acc)
    []

/-- One iteration of the inner loop of `Node._translate_timestamps` over an
operator sub-mapping: parse the nested value and accumulate it under the
timestamp key with the same get/truthy/update pattern as
`_translate_operators`. -/
def tsInnerStep (k0 : String) (acc2 : List (String × Value))
    (op : String × Value) : Except PyErr (List (String × Value)) :=
  match pyGet acc2 k0 with
  | some ev =>
    if truthy ev then
      match ev with
      | .dict dd => do
        let w ← fromisoformat op.2
        .ok (pySet acc2 k0 (.dict (pySet dd op.1 w)))
      | _ => .error .attributeError
    else do
      let w ← fromisoformat op.2
      .ok (pySet acc2 k0 (.dict [(op.1, w)]))
  | none => do
    let w ← fromisoformat op.2
    .ok (pySet acc2 k0 (.dict [(op.1, w)]))

/-- One iteration of the outer loop in `Node._translate_timestamps`: a
timestamp-designated key with a dict value has each nested operator value
parsed (accumulating exactly as in `_translate_operators`); a direct value
is parsed in place; other keys are skipped. -/
def tsStep (fields : List String) (acc : List (String × Value))
    (kv : String × Value) : Except PyErr (List (String × Value)) :=
  if kv.1 ∈ fields then
    match kv.2 with
    | .dict ops => ops.foldlM (tsInnerStep kv.1) acc
    | v => do
      let w ← fromisoformat v
      .ok (pySet acc kv.1 w)
  else .ok acc

/-- `Node._translate_timestamps(params)`: returns the dict holding only the
translated timestamp entries. -/
def translate_timestamps (fields : List String)
    (params : List (String × Value)) :
    Except PyErr (List (String × Value)) :=
  params.foldlM (tsStep fields) []

/-- `Node.translate_fields(params)`: operator extraction, then ObjectId
coercion merged in with `dict.update`, then timestamp coercion merged in
with `dict.update`. -/
def translate_fields (oidFields tsFields : List String)
    (params : List (String × Value)) :
    Except PyErr (List (String × Value)) := do
  let translated ← translate_operators params
  let oidPairs ← translate_object_ids oidFields translated
  let translated := dictUpdate translated oidPairs
  let tsPairs ← translate_timestamps tsFields translated
  .ok (dictUpdate translated tsPairs)

/-- `Node.OBJECT_ID_FIELDS`. -/
def nodeObjectIdFields : List String := ["parent"]

/-- `Node.TIMESTAMP_FIELDS`. -/
def nodeTimestampFields : List String :=
  ["created", "updated", "timeout", "holdoff"]

/-- `Node.translate_fields` with the base `Node` class field sets. -/
def nodeTranslateFields (params : List (String × Value)) :
    Except PyErr (List (String × Value)) :=
  translate_fields nodeObjectIdFields nodeTimestampFields params

/-! ### 4.4 State Transition Validator (`Node.validate_node_state_transition`) -/

/-- `StateValues` enumeration from the source (`Node.state`). -/
inductive StateValues where
  | running : StateValues
  | available : StateValues
  | closing : StateValues
  | done : StateValues
deriving DecidableEq, Repr, Fintype

/-- String value of each `StateValues` member. -/
def StateValues.toStr : StateValues → String
  | .running => "running"
  | .available => "available"
  | .closing => "closing"
  | .done => "done"

/-- The `state_transition_map` dict literal inside
`Node.validate_node_state_transition`. -/
def state_transition_map : StateValues → List StateValues
  | .running => [.available, .closing, .done]
  | .available => [.closing, .done]
  | .closing => [.done]
  | .done => []

/-- `Node.validate_node_state_transition(self, new_state)`: returns the pair
`(allowed, reason)`, with `self.state` passed explicitly as `state`. -/
def validate_node_state_transition (state new_state : StateValues) :
    Bool × String :=
  if new_state = state then
    (true, "Transition to the same state: " ++ new_state.toStr ++
      ". No validation is required.")
  else
    let valid_states := state_transition_map state
    if new_state ∉ valid_states then
      (false, "Transition not allowed with state: " ++ new_state.toStr)
    else
      (true, "Transition validated successfully")

/-- Transition table exactly as the specification states it (spec 4.4):
RUNNING → {AVAILABLE, CLOSING, DONE}; AVAILABLE → {CLOSING, DONE};
CLOSING → {DONE}; DONE → {}.  Written from the claim's words, to be compared
against the source function. -/
def specAllowedTransition : StateValues → StateValues → Bool
  | .running, .available => true
  | .running, .closing => true
  | .running, .done => true
  | .available, .closing => true
  | .available, .done => true
  | .closing, .done => true
  | _, _ => false

/-- C1: for every pair of states, `validate_node_state_transition` allows the
transition exactly when the target equals the current state (no-op) or the
pair is in the spec's transition table; in particular DONE has no outgoing
transitions other than the no-op. -/
theorem c1_state_transition_table :
    ∀ state new_state : StateValues,
      (validate_node_state_transition state new_state).1 =
        (new_state = state || specAllowedTransition state new_state) := by
  decide

/-! ### Entity data (`KernelVersion`, `Revision`, result values) -/

/-- `ResultValues` enumeration from the source (`Node.result`). -/
inductive ResultValues where
  | pass : ResultValues
  | fail : ResultValues
  | skip : ResultValues
  | incomplete : ResultValues
deriving DecidableEq, Repr

/-- `KernelVersion` model (structured kernel version). -/
structure KernelVersion where
  version : Int
  patchlevel : Int
  sublevel : Option Int := none
  extra : Option String := none
  name : Option String := none
deriving DecidableEq, Repr

/-- `Revision` model (Linux kernel Git revision). -/
structure Revision where
  tree : String
  url : String
  branch : String
  commit : String
  describe : Option String := none
  version : Option KernelVersion := none
  patchset : Option String := none
  commit_tags : List String := []
  commit_message : Option String := none
  tip_of_branch : Option Bool := none
deriving DecidableEq, Repr

/-! ### 4.5 Regression Synthesizer (`Regression.create_regression`)

`create_regression` receives two already-validated `Test`/`Kbuild` nodes.
`CNode` embeds exactly the fields the function reads: the compared identity
fields, the copied `data` descriptors, `created`, `result` and the
store-assigned identifier. -/

/-- The `data` payload fields of the two compared nodes that
`create_regression` reads (`data.kernel_revision`, `data.arch`,
`data.defconfig`, `data.config_full`, `data.compiler`, `data.platform`,
shared by `KbuildData` and `TestData`). -/
structure NodeCmpData where
  kernel_revision : Option Revision := none
  arch : Option String := none
  defconfig : Option String := none
  config_full : Option String := none
  compiler : Option String := none
  platform : Option String := none
deriving DecidableEq, Repr

/-- A validated source node as read by `create_regression`.  The `id` field
is the store-assigned identifier.  Modelled from the spec: `DatabaseModel`
(in `models_base.py`, outside the provided source) supplies the opaque
store-assigned `id`; the spec calls it "identifier (opaque,
store-assigned)". -/
structure CNode where
  id : String
  name : String
  path : List String
  group : Option String := none
  created : DateTime
  result : Option ResultValues := none
  data : NodeCmpData
deriving DecidableEq, Repr

/-- `RegressionData` model (the `data` field of a `Regression` node).
Weak node references and the node sequence carry identifier strings;
`error_code` carries the enumeration's string value. -/
structure RegressionData where
  fail_node : Option String := none
  pass_node : Option String := none
  node_sequence : List String := []
  error_code : Option String := none
  error_msg : Option String := none
  failed_kernel_revision : Option Revision := none
  arch : Option String := none
  defconfig : Option String := none
  config_full : Option String := none
  compiler : Option String := none
  platform : Option String := none
  device : Option String := none
deriving DecidableEq, Repr

/-- `Regression` model: a `Node` subtype whose `state` defaults to the base
`Node` default RUNNING and whose `result` field default is overridden to
FAIL.  Base `Node` fields not touched by `create_regression` are omitted. -/
structure Regression where
  kind : String := "regression"
  name : String
  path : List String
  group : Option String := none
  state : StateValues := .running
  result : Option ResultValues := some .fail
  data : RegressionData
deriving DecidableEq, Repr

/-- The value of one compared field as interpolated into the
`RuntimeError` message of `create_regression`. -/
inductive FieldVal where
  | s : String → FieldVal
  | os : Option String → FieldVal
  | ls : List String → FieldVal
  | rev : Option Revision → FieldVal
deriving DecidableEq, Repr

/-- The `RuntimeError` raised by `create_regression`, structured: a field
mismatch carries the offending field's name and the fail/pass values the
message interpolates; the other constructors are the temporal-ordering and
result sanity-check failures (carrying the offending result). -/
inductive RegError where
  | fieldMismatch : String → FieldVal → FieldVal → RegError
  | temporalOrder : RegError
  | passWrongResult : Option ResultValues → RegError
  | failWrongResult : Option ResultValues → RegError
deriving DecidableEq, Repr

/-- `Regression.create_regression(fail_node, pass_node)`: the `cmp_fields`
loop unrolled in source order, then the creation-timestamp check
(`pass_node.created > fail_node.created`), then the two result checks, then
construction of the in-memory `Regression` with identity fields copied from
the fail node, the snapshot `data` dict, and `state=DONE` (the `as_dict`
serialization branch is not modelled). -/
def create_regression (fail_node pass_node : CNode) :
    Except RegError Regression :=
  if fail_node.name ≠ pass_node.name then
    .error (.fieldMismatch "name" (.s fail_node.name) (.s pass_node.name))
  else if fail_node.group ≠ pass_node.group then
    .error (.fieldMismatch "group" (.os fail_node.group) (.os pass_node.group))
  else if fail_node.path ≠ pass_node.path then
    .error (.fieldMismatch "path" (.ls fail_node.path) (.ls pass_node.path))
  else if fail_node.data.kernel_revision ≠ pass_node.data.kernel_revision then
    .error (.fieldMismatch "data.kernel_revision"
      (.rev fail_node.data.kernel_revision) (.rev pass_node.data.kernel_revision))
  else if fail_node.data.arch ≠ pass_node.data.arch then
    .error (.fieldMismatch "data.arch"
      (.os fail_node.data.arch) (.os pass_node.data.arch))
  else if fail_node.data.defconfig ≠ pass_node.data.defconfig then
    .error (.fieldMismatch "data.defconfig"
      (.os fail_node.data.defconfig) (.os pass_node.data.defconfig))
  else if fail_node.data.config_full ≠ pass_node.data.config_full then
    .error (.fieldMismatch "data.config_full"
      (.os fail_node.data.config_full) (.os pass_node.data.config_full))
  else if fail_node.data.compiler ≠ pass_node.data.compiler then
    .error (.fieldMismatch "data.compiler"
      (.os fail_node.data.compiler) (.os pass_node.data.compiler))
  else if fail_node.data.platform ≠ pass_node.data.platform then
    .error (.fieldMismatch "data.platform"
      (.os fail_node.data.platform) (.os pass_node.data.platform))
  else if DateTime.ltb fail_node.created pass_node.created then
    .error .temporalOrder
  else if pass_node.result ≠ some .pass then
    .error (.passWrongResult pass_node.result)
  else if fail_node.result ≠ some .fail then
    .error (.failWrongResult fail_node.result)
  else
    .ok { name := fail_node.name
          path := fail_node.path
          group := fail_node.group
          state := .done
          data := { arch := fail_node.data.arch
                    defconfig := fail_node.data.defconfig
                    config_full := fail_node.data.config_full
                    compiler := fail_node.data.compiler
                    platform := fail_node.data.platform
                    failed_kernel_revision := fail_node.data.kernel_revision
                    fail_node := some fail_node.id
                    pass_node := some pass_node.id } }

/-! ### 4.1 Entity Schema dispatch (`parse_node_obj`)

`parse_node_obj` takes an already-validated generic `Node` and re-validates
its document into the subtype whose `class_kind` matches `node.kind`.  The
generic node is embedded as `GNode` (kind, identity fields and the raw
`data` dict; the remaining base fields re-validate unchanged and play no
role in dispatch).  Re-validation of the `data` payload can fail, which
pydantic reports as a `ValidationError`; an unmatched kind raises
`ValueError("Unsupported node kind: ...")`. -/

/-- Error raised by `parse_node_obj`: a pydantic `ValidationError` from
re-validating the document, or the unsupported-kind `ValueError`. -/
inductive ParseErr where
  | validationError : ParseErr
  | unsupportedKind : String → ParseErr
deriving DecidableEq, Repr

/-- A generic validated `Node` document as passed to `parse_node_obj`:
the discriminator, the identity fields and the free-form `data` dict
(`Optional[Dict[str, Any]]`, default `{}`). -/
structure GNode where
  kind : String := "node"
  name : String
  path : List String
  group : Option String := none
  state : StateValues := .running
  result : Option ResultValues := none
  data : Option (List (String × Value)) := some []

/-- Read an optional field: an absent key and an explicit `None` both
yield the field's `None` value. -/
def getOpt (d : List (String × Value)) (k : String) : Option Value :=
  match pyGet d k with
  | some .vnone => none
  | v => v

/-- Validate an `Optional[str]` field. -/
def vOptStr (d : List (String × Value)) (k : String) :
    Except ParseErr (Option String) :=
  match getOpt d k with
  | none => .ok none
  | some (.str s) => .ok (some s)
  | some _ => .error .validationError

/-- Validate a required `str` field. -/
def vReqStr (d : List (String × Value)) (k : String) :
    Except ParseErr String :=
  match pyGet d k with
  | some (.str s) => .ok s
  | _ => .error .validationError

/-- Validate a required `StrictInt` field (strings are rejected). -/
def vReqInt (d : List (String × Value)) (k : String) :
    Except ParseErr Int :=
  match pyGet d k with
  | some (.int n) => .ok n
  | _ => .error .validationError

/-- Validate an `Optional[StrictInt]` field. -/
def vOptInt (d : List (String × Value)) (k : String) :
    Except ParseErr (Option Int) :=
  match getOpt d k with
  | none => .ok none
  | some (.int n) => .ok (some n)
  | some _ => .error .validationError

/-- Validate an `Optional[bool]` field. -/
def vOptBool (d : List (String × Value)) (k : String) :
    Except ParseErr (Option Bool) :=
  match getOpt d k with
  | none => .ok none
  | some (.bool b) => .ok (some b)
  | some _ => .error .validationError

/-- Split an URL's character list at the first `"://"`. -/
def urlSplit : List Char → Option (List Char × List Char)
  | ':' :: '/' :: '/' :: rest => some ([], rest)
  | c :: rest => (urlSplit rest).map (fun p => (c :: p.1, p.2))
  | [] => none

/-- Modelled subset of pydantic `AnyUrl` validation: a non-empty scheme,
the `"://"` separator, and a non-empty remainder. -/
def isValidUrl (s : String) : Bool :=
  match urlSplit s.data with
  | some (scheme, rest) => !scheme.isEmpty && !rest.isEmpty
  | none => false

/-- Validate a required URL-shaped `str` field (`AnyUrl`). -/
def vUrlStr (d : List (String × Value)) (k : String) :
    Except ParseErr String :=
  match pyGet d k with
  | some (.str s) => if isValidUrl s then .ok s else .error .validationError
  | _ => .error .validationError

/-- Validate an `Optional` URL-shaped `str` field. -/
def vOptUrl (d : List (String × Value)) (k : String) :
    Except ParseErr (Option String) :=
  match getOpt d k with
  | none => .ok none
  | some (.str s) =>
    if isValidUrl s then .ok (some s) else .error .validationError
  | some _ => .error .validationError

/-- Validate one element of a `List[str]` field. -/
def strOfValue : Value → Except ParseErr String
  | .str s => .ok s
  | _ => .error .validationError

/-- Validate an `Optional[List[str]]` field. -/
def vOptStrList (d : List (String × Value)) (k : String) :
    Except ParseErr (Option (List String)) :=
  match getOpt d k with
  | none => .ok none
  | some (.list l) => (l.mapM strOfValue).map some
  | some _ => .error .validationError

/-- Validate a `List[str]` field with default `[]` (not `Optional`, so an
explicit `None` is rejected). -/
def vStrListDefault (d : List (String × Value)) (k : String) :
    Except ParseErr (List String) :=
  match pyGet d k with
  | none => .ok []
  | some (.list l) => l.mapM strOfValue
  | some _ => .error .validationError

/-- Validate an optional string-enumeration field against the enumeration's
declared values. -/
def vOptEnum (allowed : List String) (d : List (String × Value))
    (k : String) : Except ParseErr (Option String) :=
  match getOpt d k with
  | none => .ok none
  | some (.str s) =>
    if s ∈ allowed then .ok (some s) else .error .validationError
  | some _ => .error .validationError

/-- Validate an `Optional[PyObjectId]` field: an `ObjectId` instance or its
24-hex-character string form. -/
def vOptOid (d : List (String × Value)) (k : String) :
    Except ParseErr (Option String) :=
  match getOpt d k with
  | none => .ok none
  | some (.oid s) => .ok (some s)
  | some (.str s) =>
    if s.data.length = 24 && s.data.all isHexDigit then .ok (some s)
    else .error .validationError
  | some _ => .error .validationError

/-- Validate one element of a `List[PyObjectId]` field. -/
def oidOfValue : Value → Except ParseErr String
  | .oid s => .ok s
  | .str s =>
    if s.data.length = 24 && s.data.all isHexDigit then .ok s
    else .error .validationError
  | _ => .error .validationError

/-- Validate an `Optional[dict]` field (`TestData.misc`). -/
def vOptDict (d : List (String × Value)) (k : String) :
    Except ParseErr (Option (List (String × Value))) :=
  match getOpt d k with
  | none => .ok none
  | some (.dict m) => .ok (some m)
  | some _ => .error .validationError

/-- Validate a raw value against the `KernelVersion` model. -/
def parseKernelVersion (v : Value) : Except ParseErr KernelVersion :=
  match v with
  | .dict d => do
    let version ← vReqInt d "version"
    let patchlevel ← vReqInt d "patchlevel"
    let sublevel ← vOptInt d "sublevel"
    let extra ← vOptStr d "extra"
    let nm ← vOptStr d "name"
    .ok { version := version, patchlevel := patchlevel,
          sublevel := sublevel, extra := extra, name := nm }
  | _ => .error .validationError

/-- Validate a raw value against the `Revision` model. -/
def parseRevision (v : Value) : Except ParseErr Revision :=
  match v with
  | .dict d => do
    let tree ← vReqStr d "tree"
    let url ← vUrlStr d "url"
    let branch ← vReqStr d "branch"
    let commit ← vReqStr d "commit"
    let describe ← vOptStr d "describe"
    let version ←
      match getOpt d "version" with
      | none => Except.ok Option.none
      | some w => (parseKernelVersion w).map some
    let patchset ← vOptStr d "patchset"
    let commit_tags ← vStrListDefault d "commit_tags"
    let commit_message ← vOptStr d "commit_message"
    let tip_of_branch ← vOptBool d "tip_of_branch"
    .ok { tree := tree, url := url, branch := branch, commit := commit,
          describe := describe, version := version, patchset := patchset,
          commit_tags := commit_tags, commit_message := commit_message,
          tip_of_branch := tip_of_branch }
  | _ => .error .validationError

/-- Validate an `Optional[Revision]` field. -/
def vOptRevision (d : List (String × Value)) (k : String) :
    Except ParseErr (Option Revision) :=
  match getOpt d k with
  | none => .ok none
  | some v => (parseRevision v).map some

/-- `CheckoutErrorCodes` enumeration values. -/
def checkoutErrorCodes : List String :=
  ["node_timeout", "git_checkout_failure"]

/-- `ErrorCodes` enumeration values. -/
def errorCodesValues : List String :=
  ["invalid_job_params", "submit_error", "node_timeout", "Infrastructure",
   "Canceled", "Job", "Bug", "Test", "Configuration", "LAVATimeout",
   "MultinodeTimeout", "ObjectNotPersisted",
   "Unexisting permission codename.", "job_generation_error",
   "kbuild_internal_error"]

/-- `CheckoutData` model (the `data` field of a `Checkout` node). -/
structure CheckoutData where
  kernel_revision : Option Revision := none
  error_code : Option String := none
  error_msg : Option String := none
  architecture_filter : Option (List String) := none
deriving DecidableEq, Repr

/-- `KbuildData` model (the `data` field of a `Kbuild` node). -/
structure KbuildData where
  kernel_revision : Option Revision := none
  arch : Option String := none
  defconfig : Option String := none
  compiler : Option String := none
  error_code : Option String := none
  error_msg : Option String := none
  fragments : Option (List String) := none
  config_full : Option String := none
  platform : Option String := none
  runtime : Option String := none
  job_id : Option String := none
  job_context : Option String := none
  kernel_type : Option String := none
  regression : Option String := none
deriving DecidableEq, Repr

/-- `TestData` model (the `data` field of `Test` and `Job` nodes). -/
structure TestData where
  error_code : Option String := none
  error_msg : Option String := none
  test_source : Option String := none
  test_revision : Option Revision := none
  platform : Option String := none
  device : Option String := none
  runtime : Option String := none
  job_id : Option String := none
  job_context : Option String := none
  regression : Option String := none
  kernel_revision : Option Revision := none
  arch : Option String := none
  defconfig : Option String := none
  config_full : Option String := none
  compiler : Option String := none
  kernel_type : Option String := none
  misc : Option (List (String × Value)) := some []

/-- Validate the `data` document of a `Checkout` node into `CheckoutData`
(an explicit `None` document is rejected, since the field's annotation is
the bare submodel type). -/
def validateCheckoutData (data : Option (List (String × Value))) :
    Except ParseErr CheckoutData :=
  match data with
  | none => .error .validationError
  | some d => do
    let kernel_revision ← vOptRevision d "kernel_revision"
    let error_code ← vOptEnum checkoutErrorCodes d "error_code"
    let error_msg ← vOptStr d "error_msg"
    let architecture_filter ← vOptStrList d "architecture_filter"
    .ok { kernel_revision := kernel_revision, error_code := error_code,
          error_msg := error_msg,
          architecture_filter := architecture_filter }

/-- Validate the `data` document of a `Kbuild` node into `KbuildData`. -/
def validateKbuildData (data : Option (List (String × Value))) :
    Except ParseErr KbuildData :=
  match data with
  | none => .error .validationError
  | some d => do
    let kernel_revision ← vOptRevision d "kernel_revision"
    let arch ← vOptStr d "arch"
    let defconfig ← vOptStr d "defconfig"
    let compiler ← vOptStr d "compiler"
    let error_code ← vOptEnum errorCodesValues d "error_code"
    let error_msg ← vOptStr d "error_msg"
    let fragments ← vOptStrList d "fragments"
    let config_full ← vOptStr d "config_full"
    let platform ← vOptStr d "platform"
    let runtime ← vOptStr d "runtime"
    let job_id ← vOptStr d "job_id"
    let job_context ← vOptStr d "job_context"
    let kernel_type ← vOptStr d "kernel_type"
    let regression ← vOptOid d "regression"
    .ok { kernel_revision := kernel_revision, arch := arch,
          defconfig := defconfig, compiler := compiler,
          error_code := error_code, error_msg := error_msg,
          fragments := fragments, config_full := config_full,
          platform := platform, runtime := runtime, job_id := job_id,
          job_context := job_context, kernel_type := kernel_type,
          regression := regression }

/-- Validate the `data` document of a `Test` or `Job` node into
`TestData`. -/
def validateTestData (data : Option (List (String × Value))) :
    Except ParseErr TestData :=
  match data with
  | none => .error .validationError
  | some d => do
    let error_code ← vOptEnum errorCodesValues d "error_code"
    let error_msg ← vOptStr d "error_msg"
    let test_source ← vOptUrl d "test_source"
    let test_revision ← vOptRevision d "test_revision"
    let platform ← vOptStr d "platform"
    let device ← vOptStr d "device"
    let runtime ← vOptStr d "runtime"
    let job_id ← vOptStr d "job_id"
    let job_context ← vOptStr d "job_context"
    let regression ← vOptOid d "regression"
    let kernel_revision ← vOptRevision d "kernel_revision"
    let arch ← vOptStr d "arch"
    let defconfig ← vOptStr d "defconfig"
    let config_full ← vOptStr d "config_full"
    let compiler ← vOptStr d "compiler"
    let kernel_type ← vOptStr d "kernel_type"
    let misc ← vOptDict d "misc"
    .ok { error_code := error_code, error_msg := error_msg,
          test_source := test_source, test_revision := test_revision,
          platform := platform, device := device, runtime := runtime,
          job_id := job_id, job_context := job_context,
          regression := regression, kernel_revision := kernel_revision,
          arch := arch, defconfig := defconfig, config_full := config_full,
          compiler := compiler, kernel_type := kernel_type, misc := misc }

/-- Validate the `data` document of a `Regression` node into
`RegressionData`. -/
def validateRegressionData (data : Option (List (String × Value))) :
    Except ParseErr RegressionData :=
  match data with
  | none => .error .validationError
  | some d => do
    let fail_node ← vOptOid d "fail_node"
    let pass_node ← vOptOid d "pass_node"
    let node_sequence ←
      match getOpt d "node_sequence" with
      | none => Except.ok ([] : List String)
      | some (.list l) => l.mapM oidOfValue
      | some _ => Except.error ParseErr.validationError
    let error_code ← vOptEnum errorCodesValues d "error_code"
    let error_msg ← vOptStr d "error_msg"
    let failed_kernel_revision ← vOptRevision d "failed_kernel_revision"
    let arch ← vOptStr d "arch"
    let defconfig ← vOptStr d "defconfig"
    let config_full ← vOptStr d "config_full"
    let compiler ← vOptStr d "compiler"
    let platform ← vOptStr d "platform"
    let device ← vOptStr d "device"
    .ok { fail_node := fail_node, pass_node := pass_node,
          node_sequence := node_sequence, error_code := error_code,
          error_msg := error_msg,
          failed_kernel_revision := failed_kernel_revision, arch := arch,
          defconfig := defconfig, config_full := config_full,
          compiler := compiler, platform := platform, device := device }

/-- The result of `parse_node_obj`: a node re-validated into the subtype
selected by its `kind`. -/
inductive TypedNode where
  | checkout : GNode → CheckoutData → TypedNode
  | kbuild : GNode → KbuildData → TypedNode
  | test : GNode → TestData → TypedNode
  | job : GNode → TestData → TypedNode
  | regression : GNode → RegressionData → TypedNode

/-- The `class_kind` tag of the subtype a `TypedNode` was validated into. -/
def TypedNode.kindTag : TypedNode → String
  | .checkout _ _ => "checkout"
  | .kbuild _ _ => "kbuild"
  | .test _ _ => "test"
  | .job _ _ => "job"
  | .regression _ _ => "regression"

/-- The `class_kind` tags of the registered `Node` subclasses, in
declaration order (the order `type(node).__subclasses__()` yields them). -/
def nodeSubclassKinds : List String :=
  ["checkout", "kbuild", "test", "job", "regression"]

/-- `parse_node_obj(node)`: scan the registered `Node` subclasses in order,
re-validating the document into the first one whose `class_kind` equals
`node.kind`; raise the unsupported-kind `ValueError` when none matches. -/
def parse_node_obj (n : GNode) : Except ParseErr TypedNode :=
  if n.kind = "checkout" then (validateCheckoutData n.data).map (.checkout n)
  else if n.kind = "kbuild" then (validateKbuildData n.data).map (.kbuild n)
  else if n.kind = "test" then (validateTestData n.data).map (.test n)
  else if n.kind = "job" then (validateTestData n.data).map (.job n)
  else if n.kind = "regression" then
    (validateRegressionData n.data).map (.regression n)
  else .error (.unsupportedKind n.kind)

/-! ### Association-list dictionary lemmas -/

theorem pyGet_pySet_same (d : List (String × Value)) (k : String) (v : Value) :
    pyGet (pySet d k v) k = some v := by
  induction d with
  | nil => simp [pySet, pyGet]
  | cons kv rest ih =>
    by_cases h : kv.1 = k
    · simp [pySet, h, pyGet]
    · simp [pySet, h, pyGet, ih]

theorem pyGet_pySet_ne (d : List (String × Value)) (k k' : String) (v : Value)
    (h : k' ≠ k) : pyGet (pySet d k v) k' = pyGet d k' := by
  induction d with
  | nil => simp [pySet, pyGet, Ne.symm h]
  | cons kv rest ih =>
    by_cases hk : kv.1 = k
    · simp [pySet, pyGet, hk, Ne.symm h]
    · by_cases hk' : kv.1 = k'
      · simp [pySet, pyGet, hk, hk', h]
      · simp [pySet, pyGet, hk, hk', ih]

theorem pyGet_eq_none_iff (d : List (String × Value)) (k : String) :
    pyGet d k = none ↔ k ∉ d.map Prod.fst := by
  induction d with
  | nil => simp [pyGet]
  | cons kv rest ih =>
    by_cases h : kv.1 = k
    · simp [pyGet, h]
    · simp only [pyGet, if_neg h, List.map_cons, List.mem_cons, ih, not_or]
      have : ¬k = kv.1 := fun hh => h hh.symm
      simp [this]

theorem keys_pySet_mem (d : List (String × Value)) (k : String) (v : Value)
    (h : k ∈ d.map Prod.fst) :
    (pySet d k v).map Prod.fst = d.map Prod.fst := by
  induction d with
  | nil => simp at h
  | cons kv rest ih =>
    by_cases hk : kv.1 = k
    · simp [pySet, hk]
    · simp only [List.map_cons, List.mem_cons] at h
      rcases h with h | h
      · exact absurd h.symm hk
      · simp [pySet, hk, ih h]

theorem pySet_not_mem (d : List (String × Value)) (k : String) (v : Value)
    (h : k ∉ d.map Prod.fst) : pySet d k v = d ++ [(k, v)] := by
  induction d with
  | nil => simp [pySet]
  | cons kv rest ih =>
    simp only [List.map_cons, List.mem_cons] at h
    push_neg at h
    have h1 : ¬kv.1 = k := fun hh => h.1 hh.symm
    simp [pySet, h1, ih h.2]

theorem pySet_self (d : List (String × Value)) (k : String) (v : Value)
    (h : pyGet d k = some v) : pySet d k v = d := by
  induction d with
  | nil => simp [pyGet] at h
  | cons kv rest ih =>
    obtain ⟨k1, v1⟩ := kv
    by_cases hk : k1 = k
    · subst hk
      simp only [pyGet, if_pos rfl] at h
      obtain rfl := Option.some.inj h
      simp [pySet]
    · simp only [pyGet, if_neg hk] at h
      simp [pySet, hk, ih h]

theorem dictUpdate_nil (d : List (String × Value)) : dictUpdate d [] = d := rfl

theorem dictUpdate_cons (d : List (String × Value)) (kv : String × Value)
    (ps : List (String × Value)) :
    dictUpdate d (kv :: ps) = dictUpdate (pySet d kv.1 kv.2) ps := rfl

theorem pyGet_dictUpdate_not_mem (ps : List (String × Value))
    (d : List (String × Value)) (k : String) (h : k ∉ ps.map Prod.fst) :
    pyGet (dictUpdate d ps) k = pyGet d k := by
  induction ps generalizing d with
  | nil => rfl
  | cons kv rest ih =>
    simp only [List.map_cons, List.mem_cons] at h
    push_neg at h
    rw [dictUpdate_cons, ih _ h.2, pyGet_pySet_ne _ _ _ _ h.1]

theorem keys_dictUpdate_sub (ps : List (String × Value))
    (d : List (String × Value))
    (h : ∀ k ∈ ps.map Prod.fst, k ∈ d.map Prod.fst) :
    (dictUpdate d ps).map Prod.fst = d.map Prod.fst := by
  induction ps generalizing d with
  | nil => rfl
  | cons kv rest ih =>
    rw [dictUpdate_cons]
    have hmem : kv.1 ∈ d.map Prod.fst := h kv.1 (by simp)
    rw [ih _ ?_, keys_pySet_mem _ _ _ hmem]
    intro k hk
    rw [keys_pySet_mem _ _ _ hmem]
    exact h k (by simp [hk])

theorem pyGet_isSome_iff (d : List (String × Value)) (k : String) :
    (∃ v, pyGet d k = some v) ↔ k ∈ d.map Prod.fst := by
  induction d with
  | nil => simp [pyGet]
  | cons kv rest ih =>
    by_cases h : kv.1 = k
    · simp [pyGet, h]
    · have h1 : ¬k = kv.1 := fun hh => h hh.symm
      simp [pyGet, h, ih, h1]

@[simp] theorem except_bind_ok {α β ε : Type} (a : α) (f : α → Except ε β) :
    (Except.ok a >>= f) = f a := rfl

@[simp] theorem except_bind_error {α β ε : Type} (e : ε)
    (f : α → Except ε β) :
    ((Except.error e : Except ε α) >>= f) = .error e := rfl

@[simp] theorem except_map_ok {α β ε : Type} (a : α) (f : α → β) :
    (Except.ok a : Except ε α).map f = .ok (f a) := rfl

@[simp] theorem except_map_error {α β ε : Type} (e : ε) (f : α → β) :
    (Except.error e : Except ε α).map f = .error e := rfl

theorem foldlM_append_except {α β ε : Type} (f : β → α → Except ε β)
    (l1 l2 : List α) (b : β) :
    (l1 ++ l2).foldlM f b =
      match l1.foldlM f b with
      | .error e => .error e
      | .ok b2 => l2.foldlM f b2 := by
  induction l1 generalizing b with
  | nil => rfl
  | cons a rest ih =>
    simp only [List.cons_append, List.foldlM_cons]
    cases hfa : f b a with
    | error e => rfl
    | ok b1 => exact ih b1

/-! ### C9: operator extraction crashes on a bare key mixed with an
operator-suffixed key on the same base field -/

/-- C9: a mapping holding both a bare key `f` with a non-empty string value
and an operator-suffixed key `f__ne` makes `_translate_operators` attempt
`dict.update` on the string already stored under `f`, raising
`AttributeError` instead of returning a translated mapping. -/
theorem c9_bare_and_suffixed_key_crash :
    translate_operators [("f", .str "v"), ("f__ne", .str "w")] =
      .error .attributeError := rfl

/-! ### Shared lemmas about `create_regression` -/

/-- The nine-field agreement checked by the `cmp_fields` loop. -/
def agreeCmpFields (f p : CNode) : Prop :=
  f.name = p.name ∧ f.group = p.group ∧ f.path = p.path ∧
  f.data.kernel_revision = p.data.kernel_revision ∧
  f.data.arch = p.data.arch ∧ f.data.defconfig = p.data.defconfig ∧
  f.data.config_full = p.data.config_full ∧
  f.data.compiler = p.data.compiler ∧ f.data.platform = p.data.platform

instance (f p : CNode) : Decidable (agreeCmpFields f p) := by
  unfold agreeCmpFields
  infer_instance

/-- The regression record `create_regression` constructs on success. -/
def regRecord (f p : CNode) : Regression :=
  { name := f.name, path := f.path, group := f.group, state := .done,
    data := { arch := f.data.arch, defconfig := f.data.defconfig,
              config_full := f.data.config_full,
              compiler := f.data.compiler, platform := f.data.platform,
              failed_kernel_revision := f.data.kernel_revision,
              fail_node := some f.id, pass_node := some p.id } }

theorem create_regression_eq_ok (f p : CNode) (hagree : agreeCmpFields f p)
    (hlt : DateTime.ltb f.created p.created = false)
    (hp : p.result = some .pass) (hf : f.result = some .fail) :
    create_regression f p = .ok (regRecord f p) := by
  obtain ⟨h1, h2, h3, h4, h5, h6, h7, h8, h9⟩ := hagree
  unfold create_regression
  rw [if_neg (not_not_intro h1), if_neg (not_not_intro h2),
    if_neg (not_not_intro h3), if_neg (not_not_intro h4),
    if_neg (not_not_intro h5), if_neg (not_not_intro h6),
    if_neg (not_not_intro h7), if_neg (not_not_intro h8),
    if_neg (not_not_intro h9)]
  rw [if_neg (by rw [hlt]; exact Bool.false_ne_true),
    if_neg (not_not_intro hp), if_neg (not_not_intro hf)]
  rfl

theorem create_regression_ok_inv (f p : CNode) (r : Regression)
    (h : create_regression f p = .ok r) : r = regRecord f p := by
  unfold create_regression at h
  by_cases h1 : f.name = p.name
  case neg => rw [if_pos h1] at h; exact Except.noConfusion h
  rw [if_neg (not_not_intro h1)] at h
  by_cases h2 : f.group = p.group
  case neg => rw [if_pos h2] at h; exact Except.noConfusion h
  rw [if_neg (not_not_intro h2)] at h
  by_cases h3 : f.path = p.path
  case neg => rw [if_pos h3] at h; exact Except.noConfusion h
  rw [if_neg (not_not_intro h3)] at h
  by_cases h4 : f.data.kernel_revision = p.data.kernel_revision
  case neg => rw [if_pos h4] at h; exact Except.noConfusion h
  rw [if_neg (not_not_intro h4)] at h
  by_cases h5 : f.data.arch = p.data.arch
  case neg => rw [if_pos h5] at h; exact Except.noConfusion h
  rw [if_neg (not_not_intro h5)] at h
  by_cases h6 : f.data.defconfig = p.data.defconfig
  case neg => rw [if_pos h6] at h; exact Except.noConfusion h
  rw [if_neg (not_not_intro h6)] at h
  by_cases h7 : f.data.config_full = p.data.config_full
  case neg => rw [if_pos h7] at h; exact Except.noConfusion h
  rw [if_neg (not_not_intro h7)] at h
  by_cases h8 : f.data.compiler = p.data.compiler
  case neg => rw [if_pos h8] at h; exact Except.noConfusion h
  rw [if_neg (not_not_intro h8)] at h
  by_cases h9 : f.data.platform = p.data.platform
  case neg => rw [if_pos h9] at h; exact Except.noConfusion h
  rw [if_neg (not_not_intro h9)] at h
  by_cases h10 : DateTime.ltb f.created p.created = true
  case pos => rw [if_pos h10] at h; exact Except.noConfusion h
  rw [if_neg h10] at h
  by_cases h11 : p.result = some ResultValues.pass
  case neg => rw [if_pos h11] at h; exact Except.noConfusion h
  rw [if_neg (not_not_intro h11)] at h
  by_cases h12 : f.result = some ResultValues.fail
  case neg => rw [if_pos h12] at h; exact Except.noConfusion h
  rw [if_neg (not_not_intro h12)] at h
  injection h with h
  exact h.symm

/-! ### C10: freshly synthesized regressions are active -/

/-- C10: every `Regression` returned by `create_regression` has `result`
FAIL (the field's default, not overridden by the constructor call) and an
empty `data.node_sequence`, i.e. it is active at creation. -/
theorem c10_fresh_regression_active (fail_node pass_node : CNode)
    (r : Regression) (h : create_regression fail_node pass_node = .ok r) :
    r.result = some .fail ∧ r.data.node_sequence = [] := by
  rw [create_regression_ok_inv fail_node pass_node r h]
  exact ⟨rfl, rfl⟩

/-! ### Fixture nodes used by the concrete witness statements -/

/-- Kernel revision shared by the fixture nodes. -/
def witRev : Revision :=
  { tree := "mainline", url := "https://git.kernel.org/linux.git",
    branch := "master", commit := "1e4c2f" }

/-- Compared `data` descriptors shared by the fixture nodes. -/
def witData : NodeCmpData :=
  { kernel_revision := some witRev, arch := some "x86_64",
    defconfig := some "defconfig", config_full := some "defconfig+kselftest",
    compiler := some "gcc-12", platform := some "qemu-x86" }

/-- Fixture failing node (created second). -/
def witFailNode : CNode :=
  { id := "65a000000000000000000001", name := "baseline.login",
    path := ["checkout", "kbuild", "baseline.login"],
    group := some "baseline", created := ⟨2024, 2, 2, 12, 0, 0⟩,
    result := some .fail, data := witData }

/-- Fixture passing node (created first). -/
def witPassNode : CNode :=
  { id := "65a000000000000000000002", name := "baseline.login",
    path := ["checkout", "kbuild", "baseline.login"],
    group := some "baseline", created := ⟨2024, 1, 1, 12, 0, 0⟩,
    result := some .pass, data := witData }

/-- The regression `create_regression` builds from the fixture nodes. -/
def witReg : Regression :=
  { name := "baseline.login",
    path := ["checkout", "kbuild", "baseline.login"],
    group := some "baseline", state := .done,
    data := { arch := some "x86_64", defconfig := some "defconfig",
              config_full := some "defconfig+kselftest",
              compiler := some "gcc-12", platform := some "qemu-x86",
              failed_kernel_revision := some witRev,
              fail_node := some "65a000000000000000000001",
              pass_node := some "65a000000000000000000002" } }

/-- Witness for C10: the fixture synthesis succeeds and the theorem applies
to it. -/
theorem c10_fresh_regression_active_witness :
    witReg.result = some .fail ∧ witReg.data.node_sequence = [] :=
  c10_fresh_regression_active witFailNode witPassNode witReg rfl

/-! ### C2: regression synthesis from an agreeing fail/pass pair -/

theorem DateTime.ltb_asymm (a b : DateTime) (h : DateTime.ltb a b = true) :
    DateTime.ltb b a = false := by
  unfold DateTime.ltb at *
  split_ifs at * <;> simp_all <;> omega

/-- The `RuntimeError` of a failed `cmp_fields` check names a field on which
the two nodes actually differ and carries that field's value on each side. -/
def namesMismatch (f p : CNode) (e : RegError) : Prop :=
  (f.name ≠ p.name ∧
    e = .fieldMismatch "name" (.s f.name) (.s p.name)) ∨
  (f.group ≠ p.group ∧
    e = .fieldMismatch "group" (.os f.group) (.os p.group)) ∨
  (f.path ≠ p.path ∧
    e = .fieldMismatch "path" (.ls f.path) (.ls p.path)) ∨
  (f.data.kernel_revision ≠ p.data.kernel_revision ∧
    e = .fieldMismatch "data.kernel_revision"
      (.rev f.data.kernel_revision) (.rev p.data.kernel_revision)) ∨
  (f.data.arch ≠ p.data.arch ∧
    e = .fieldMismatch "data.arch" (.os f.data.arch) (.os p.data.arch)) ∨
  (f.data.defconfig ≠ p.data.defconfig ∧
    e = .fieldMismatch "data.defconfig"
      (.os f.data.defconfig) (.os p.data.defconfig)) ∨
  (f.data.config_full ≠ p.data.config_full ∧
    e = .fieldMismatch "data.config_full"
      (.os f.data.config_full) (.os p.data.config_full)) ∨
  (f.data.compiler ≠ p.data.compiler ∧
    e = .fieldMismatch "data.compiler"
      (.os f.data.compiler) (.os p.data.compiler)) ∨
  (f.data.platform ≠ p.data.platform ∧
    e = .fieldMismatch "data.platform"
      (.os f.data.platform) (.os p.data.platform))

/-- C2: for nodes agreeing on the nine compared fields, with the pass node
created strictly before the fail node and with PASS/FAIL results,
`create_regression` succeeds and returns a Regression whose `name`, `path`
and `group` are the fail node's, whose `data.fail_node`/`data.pass_node`
are the two input identifiers, whose `data` snapshot copies the fail node's
descriptors and kernel revision, and whose `state` is DONE; a mismatch in
one of the nine compared fields instead fails with an error naming that
field and both conflicting values. -/
theorem c2_regression_synthesis (f p : CNode) :
    (agreeCmpFields f p → DateTime.ltb p.created f.created = true →
      p.result = some .pass → f.result = some .fail →
      create_regression f p = .ok
        { name := f.name, path := f.path, group := f.group,
          state := .done, result := some .fail,
          data := { arch := f.data.arch, defconfig := f.data.defconfig,
                    config_full := f.data.config_full,
                    compiler := f.data.compiler,
                    platform := f.data.platform,
                    failed_kernel_revision := f.data.kernel_revision,
                    fail_node := some f.id, pass_node := some p.id,
                    node_sequence := [] } }) ∧
    (¬agreeCmpFields f p →
      ∃ e, create_regression f p = .error e ∧ namesMismatch f p e) := by
  constructor
  · intro hagree hlt hp hf
    exact create_regression_eq_ok f p hagree
      (DateTime.ltb_asymm p.created f.created hlt) hp hf
  · intro hne
    unfold create_regression
    by_cases h1 : f.name = p.name
    case neg =>
      exact ⟨_, by rw [if_pos h1], Or.inl ⟨h1, rfl⟩⟩
    rw [if_neg (not_not_intro h1)]
    by_cases h2 : f.group = p.group
    case neg =>
      exact ⟨_, by rw [if_pos h2], Or.inr (Or.inl ⟨h2, rfl⟩)⟩
    rw [if_neg (not_not_intro h2)]
    by_cases h3 : f.path = p.path
    case neg =>
      exact ⟨_, by rw [if_pos h3], Or.inr (Or.inr (Or.inl ⟨h3, rfl⟩))⟩
    rw [if_neg (not_not_intro h3)]
    by_cases h4 : f.data.kernel_revision = p.data.kernel_revision
    case neg =>
      exact ⟨_, by rw [if_pos h4],
        Or.inr (Or.inr (Or.inr (Or.inl ⟨h4, rfl⟩)))⟩
    rw [if_neg (not_not_intro h4)]
    by_cases h5 : f.data.arch = p.data.arch
    case neg =>
      exact ⟨_, by rw [if_pos h5],
        Or.inr (Or.inr (Or.inr (Or.inr (Or.inl ⟨h5, rfl⟩))))⟩
    rw [if_neg (not_not_intro h5)]
    by_cases h6 : f.data.defconfig = p.data.defconfig
    case neg =>
      exact ⟨_, by rw [if_pos h6],
        Or.inr (Or.inr (Or.inr (Or.inr (Or.inr (Or.inl ⟨h6, rfl⟩)))))⟩
    rw [if_neg (not_not_intro h6)]
    by_cases h7 : f.data.config_full = p.data.config_full
    case neg =>
      exact ⟨_, by rw [if_pos h7],
        Or.inr (Or.inr (Or.inr (Or.inr (Or.inr (Or.inr
          (Or.inl ⟨h7, rfl⟩))))))⟩
    rw [if_neg (not_not_intro h7)]
    by_cases h8 : f.data.compiler = p.data.compiler
    case neg =>
      exact ⟨_, by rw [if_pos h8],
        Or.inr (Or.inr (Or.inr (Or.inr (Or.inr (Or.inr (Or.inr
          (Or.inl ⟨h8, rfl⟩)))))))⟩
    rw [if_neg (not_not_intro h8)]
    by_cases h9 : f.data.platform = p.data.platform
    case neg =>
      exact ⟨_, by rw [if_pos h9],
        Or.inr (Or.inr (Or.inr (Or.inr (Or.inr (Or.inr (Or.inr (Or.inr
          ⟨h9, rfl⟩)))))))⟩
    exact absurd ⟨h1, h2, h3, h4, h5, h6, h7, h8, h9⟩ hne

/-- Witness for C2: applying the theorem to the fixture nodes. -/
theorem c2_regression_synthesis_witness :
    create_regression witFailNode witPassNode = .ok
      { name := witFailNode.name, path := witFailNode.path,
        group := witFailNode.group, state := .done, result := some .fail,
        data := { arch := witFailNode.data.arch,
                  defconfig := witFailNode.data.defconfig,
                  config_full := witFailNode.data.config_full,
                  compiler := witFailNode.data.compiler,
                  platform := witFailNode.data.platform,
                  failed_kernel_revision := witFailNode.data.kernel_revision,
                  fail_node := some witFailNode.id,
                  pass_node := some witPassNode.id,
                  node_sequence := [] } } :=
  (c2_regression_synthesis witFailNode witPassNode).1
    (by decide) (by decide) rfl rfl

/-! ### C6: the temporal-ordering check -/

/-- Fixture failing node created at exactly the same instant as
`eqPassNode`. -/
def eqFailNode : CNode :=
  { id := "65a000000000000000000003", name := "baseline.login",
    path := ["checkout", "kbuild", "baseline.login"],
    group := some "baseline", created := ⟨2024, 3, 3, 9, 30, 0⟩,
    result := some .fail, data := witData }

/-- Fixture passing node created at exactly the same instant as
`eqFailNode`. -/
def eqPassNode : CNode :=
  { id := "65a000000000000000000004", name := "baseline.login",
    path := ["checkout", "kbuild", "baseline.login"],
    group := some "baseline", created := ⟨2024, 3, 3, 9, 30, 0⟩,
    result := some .pass, data := witData }

/-- Counterexample to C6 as stated: a field-agreeing pair whose creation
timestamps are equal — so the pass node's timestamp is not strictly earlier
than the fail node's — on which `create_regression` nevertheless succeeds
instead of failing with the temporal-ordering error (`pass_node.created >
fail_node.created` is false for equal timestamps). -/
theorem c6_counterexample :
    eqPassNode.created = eqFailNode.created ∧
      create_regression eqFailNode eqPassNode =
        .ok (regRecord eqFailNode eqPassNode) :=
  ⟨rfl, rfl⟩

/-- C6 as amended: for a field-agreeing pair, `create_regression` fails
with the temporal-ordering error exactly when the pass node's creation
timestamp is strictly later than the fail node's (equal timestamps pass the
check); in particular it fails when the fail node was created first. -/
theorem c6_temporal_ordering (f p : CNode) (hagree : agreeCmpFields f p) :
    create_regression f p = .error .temporalOrder ↔
      DateTime.ltb f.created p.created = true := by
  obtain ⟨h1, h2, h3, h4, h5, h6, h7, h8, h9⟩ := hagree
  unfold create_regression
  rw [if_neg (not_not_intro h1), if_neg (not_not_intro h2),
    if_neg (not_not_intro h3), if_neg (not_not_intro h4),
    if_neg (not_not_intro h5), if_neg (not_not_intro h6),
    if_neg (not_not_intro h7), if_neg (not_not_intro h8),
    if_neg (not_not_intro h9)]
  by_cases hlt : DateTime.ltb f.created p.created = true
  · rw [if_pos hlt]
    simp [hlt]
  · rw [if_neg hlt]
    constructor
    · intro hcontra
      by_cases hp : p.result = some ResultValues.pass
      · rw [if_neg (not_not_intro hp)] at hcontra
        by_cases hf : f.result = some ResultValues.fail
        · rw [if_neg (not_not_intro hf)] at hcontra
          exact Except.noConfusion hcontra
        · rw [if_pos hf] at hcontra
          exact RegError.noConfusion (Except.error.inj hcontra)
      · rw [if_pos hp] at hcontra
        exact RegError.noConfusion (Except.error.inj hcontra)
    · intro hcontra
      exact absurd hcontra hlt

/-- Witness for the amended C6: on the fixture pair with the fail node
created first, both directions of the equivalence are exercised — the
synthesis does not report a temporal-ordering error. -/
theorem c6_temporal_ordering_witness :
    (create_regression witFailNode witPassNode =
        .error .temporalOrder ↔
      DateTime.ltb witFailNode.created witPassNode.created = true) ∧
    create_regression witFailNode witPassNode ≠ .error .temporalOrder :=
  ⟨c6_temporal_ordering witFailNode witPassNode (by decide),
   fun h => by
    have := (c6_temporal_ordering witFailNode witPassNode (by decide)).mp h
    exact absurd this (by decide)⟩

/-! ### C5: timestamp translation scenario -/

/-- C5: the filter `{"state": "done", "created__gte": "2024-01-01T00:00:00"}`
translates to `{"state": "done", "created": {"gte": t}}` with `t` the parsed
timestamp; and in general timestamp-designated fields are parsed from
ISO-8601 strings both in direct position and inside operator
sub-mappings. -/
theorem c5_timestamp_translation :
    nodeTranslateFields
        [("state", .str "done"),
         ("created__gte", .str "2024-01-01T00:00:00")] =
      .ok [("state", .str "done"),
           ("created", .dict [("gte", .dt ⟨2024, 1, 1, 0, 0, 0⟩)])] ∧
    (∀ fld s d, fld ∈ nodeTimestampFields →
      fromisoformat (.str s) = .ok (.dt d) →
      translate_timestamps nodeTimestampFields [(fld, .str s)] =
          .ok [(fld, .dt d)] ∧
      ∀ op, translate_timestamps nodeTimestampFields
          [(fld, .dict [(op, .str s)])] =
        .ok [(fld, .dict [(op, .dt d)])]) := by
  refine ⟨rfl, ?_⟩
  intro fld s d hmem hparse
  constructor
  · simp [translate_timestamps, List.foldlM, tsStep, hmem, hparse, pyGet,
      pySet, Except.bind]
  · intro op
    simp [translate_timestamps, List.foldlM, tsStep, tsInnerStep, hmem,
      hparse, pyGet, pySet, Except.bind]

/-- Witness for C5: the general part applied to a direct `updated` filter
and to an operator-nested `timeout` filter. -/
theorem c5_timestamp_translation_witness :
    translate_timestamps nodeTimestampFields
        [("updated", .str "2024-06-01")] =
      .ok [("updated", .dt ⟨2024, 6, 1, 0, 0, 0⟩)] ∧
    translate_timestamps nodeTimestampFields
        [("timeout", .dict [("lt", .str "2024-06-01")])] =
      .ok [("timeout", .dict [("lt", .dt ⟨2024, 6, 1, 0, 0, 0⟩)])] :=
  ⟨(c5_timestamp_translation.2 "updated" "2024-06-01" ⟨2024, 6, 1, 0, 0, 0⟩
      (by decide) rfl).1,
   (c5_timestamp_translation.2 "timeout" "2024-06-01" ⟨2024, 6, 1, 0, 0, 0⟩
      (by decide) rfl).2 "lt"⟩

/-! ### C4: identifier fields with an operator suffix -/

/-- Counterexample to C4 as stated: the single-entry filter
`{"parent__ne": "61f1a2b3c4d5e6f7a8b9c0d1"}` makes `translate_fields` raise
`TypeError` — `_translate_object_ids` hands the whole operator sub-mapping
`{"ne": ...}` to `ObjectId`, which rejects non-string input — instead of
returning `{parent: {ne: coerced}}`. -/
theorem c4_counterexample :
    nodeTranslateFields [("parent__ne", .str "61f1a2b3c4d5e6f7a8b9c0d1")] =
      .error .typeError := rfl

theorem oid_fold_parent_dict (t : List (String × Value))
    (l : List (String × Value)) (acc : List (String × Value))
    (h : pyGet t "parent" = some (.dict l)) :
    t.foldlM
      (fun acc2 kv =>
        if kv.1 ∈ nodeObjectIdFields then do
          let w ← mkObjectId kv.2
          Except.ok (acc2 ++ [(kv.1, w)])
        else Except.ok acc2)
      acc = .error .typeError := by
  induction t generalizing acc with
  | nil => simp [pyGet] at h
  | cons kv rest ih =>
    by_cases hk : kv.1 = "parent"
    · simp only [pyGet, if_pos hk] at h
      have h2 : kv.2 = Value.dict l := Option.some.inj h
      simp [List.foldlM, nodeObjectIdFields, hk, h2, mkObjectId]
    · simp only [pyGet, if_neg hk] at h
      simp only [List.foldlM_cons]
      rw [if_neg (by simp [nodeObjectIdFields, hk])]
      simp only [except_bind_ok]
      exact ih acc h

/-- C4 as amended: whenever operator extraction leaves an operator
sub-mapping under the identifier-designated field `parent` (as any
`parent__op` key does), `translate_fields` raises `TypeError` — the
identifier coercion receives the whole sub-mapping and rejects it;
operator nesting is preserved with inner coercion only for
timestamp-designated fields. -/
theorem c4_identifier_operator_raises (ps t : List (String × Value))
    (l : List (String × Value))
    (hops : translate_operators ps = .ok t)
    (hpar : pyGet t "parent" = some (.dict l)) :
    nodeTranslateFields ps = .error .typeError := by
  unfold nodeTranslateFields translate_fields
  rw [hops]
  show (translate_object_ids nodeObjectIdFields t >>= _) = _
  rw [show translate_object_ids nodeObjectIdFields t = .error .typeError
    from oid_fold_parent_dict t l [] hpar]
  rfl

/-- Witness for the amended C4 at a concrete filter. -/
theorem c4_identifier_operator_raises_witness :
    nodeTranslateFields [("parent__gt", .str "ffffffffffffffffffffffff")] =
      .error .typeError :=
  c4_identifier_operator_raises
    [("parent__gt", .str "ffffffffffffffffffffffff")]
    [("parent", .dict [("gt", .str "ffffffffffffffffffffffff")])]
    [("gt", .str "ffffffffffffffffffffffff")] rfl rfl

/-! ### C8: kind dispatch in `parse_node_obj` -/

theorem validateCheckoutData_kr (d : List (String × Value))
    (cd : CheckoutData) (h : validateCheckoutData (some d) = .ok cd) :
    vOptRevision d "kernel_revision" = .ok cd.kernel_revision := by
  simp only [validateCheckoutData] at h
  cases hkr : vOptRevision d "kernel_revision" with
  | error e => rw [hkr] at h; exact Except.noConfusion h
  | ok kr =>
    rw [hkr] at h
    simp only [except_bind_ok] at h
    cases hec : vOptEnum checkoutErrorCodes d "error_code" with
    | error e => rw [hec] at h; exact Except.noConfusion h
    | ok ec =>
      rw [hec] at h
      simp only [except_bind_ok] at h
      cases hem : vOptStr d "error_msg" with
      | error e => rw [hem] at h; exact Except.noConfusion h
      | ok em =>
        rw [hem] at h
        simp only [except_bind_ok] at h
        cases haf : vOptStrList d "architecture_filter" with
        | error e => rw [haf] at h; exact Except.noConfusion h
        | ok af =>
          rw [haf] at h
          simp only [except_bind_ok] at h
          injection h with h
          rw [← h]

/-- Counterexample to C8 as stated: a node whose `kind` is the registered
tag `"checkout"` but whose payload does not validate (`kernel_revision` is
the integer 5, not a revision document); `parse_node_obj` raises a
`ValidationError` instead of returning a Checkout-typed entity. -/
theorem c8_counterexample :
    parse_node_obj
        { kind := "checkout", name := "checkout-node",
          path := ["checkout-node"],
          data := some [("kernel_revision", .int 5)] } =
      .error .validationError := rfl

/-- C8 as amended: a node whose `kind` matches no registered subtype fails
with the unsupported-kind error; a node whose `kind` matches a registered
subtype is re-validated into exactly that subtype whenever its payload
validates (failing with `ValidationError` otherwise); for `kind =
"checkout"` the resulting `data.kernel_revision` is populated from the raw
document when the key is present and `None` otherwise. -/
theorem c8_kind_dispatch (n : GNode) :
    (n.kind ∉ nodeSubclassKinds →
      parse_node_obj n = .error (.unsupportedKind n.kind)) ∧
    (∀ t, parse_node_obj n = .ok t → t.kindTag = n.kind) ∧
    (∀ b cd, parse_node_obj n = .ok (.checkout b cd) →
      ∀ d, n.data = some d →
        (getOpt d "kernel_revision" = none → cd.kernel_revision = none) ∧
        (∀ v, getOpt d "kernel_revision" = some v →
          ∃ r, parseRevision v = .ok r ∧ cd.kernel_revision = some r)) := by
  refine ⟨?_, ?_, ?_⟩
  · intro hn
    simp only [nodeSubclassKinds, List.mem_cons, List.not_mem_nil, or_false,
      not_or] at hn
    obtain ⟨k1, k2, k3, k4, k5⟩ := hn
    unfold parse_node_obj
    rw [if_neg k1, if_neg k2, if_neg k3, if_neg k4, if_neg k5]
  · intro t ht
    unfold parse_node_obj at ht
    by_cases k1 : n.kind = "checkout"
    · rw [if_pos k1] at ht
      cases hv : validateCheckoutData n.data with
      | error e => rw [hv] at ht; exact Except.noConfusion ht
      | ok cd =>
        rw [hv] at ht
        simp only [except_map_ok] at ht
        obtain rfl := Except.ok.inj ht.symm
        simp [TypedNode.kindTag, k1]
    rw [if_neg k1] at ht
    by_cases k2 : n.kind = "kbuild"
    · rw [if_pos k2] at ht
      cases hv : validateKbuildData n.data with
      | error e => rw [hv] at ht; exact Except.noConfusion ht
      | ok cd =>
        rw [hv] at ht
        simp only [except_map_ok] at ht
        obtain rfl := Except.ok.inj ht.symm
        simp [TypedNode.kindTag, k2]
    rw [if_neg k2] at ht
    by_cases k3 : n.kind = "test"
    · rw [if_pos k3] at ht
      cases hv : validateTestData n.data with
      | error e => rw [hv] at ht; exact Except.noConfusion ht
      | ok cd =>
        rw [hv] at ht
        simp only [except_map_ok] at ht
        obtain rfl := Except.ok.inj ht.symm
        simp [TypedNode.kindTag, k3]
    rw [if_neg k3] at ht
    by_cases k4 : n.kind = "job"
    · rw [if_pos k4] at ht
      cases hv : validateTestData n.data with
      | error e => rw [hv] at ht; exact Except.noConfusion ht
      | ok cd =>
        rw [hv] at ht
        simp only [except_map_ok] at ht
        obtain rfl := Except.ok.inj ht.symm
        simp [TypedNode.kindTag, k4]
    rw [if_neg k4] at ht
    by_cases k5 : n.kind = "regression"
    · rw [if_pos k5] at ht
      cases hv : validateRegressionData n.data with
      | error e => rw [hv] at ht; exact Except.noConfusion ht
      | ok cd =>
        rw [hv] at ht
        simp only [except_map_ok] at ht
        obtain rfl := Except.ok.inj ht.symm
        simp [TypedNode.kindTag, k5]
    rw [if_neg k5] at ht
    exact Except.noConfusion ht
  · intro b cd ht d hd
    unfold parse_node_obj at ht
    by_cases k1 : n.kind = "checkout"
    case neg =>
      rw [if_neg k1] at ht
      by_cases k2 : n.kind = "kbuild"
      · rw [if_pos k2] at ht
        cases hv : validateKbuildData n.data with
        | error e => rw [hv] at ht; exact Except.noConfusion ht
        | ok kd =>
          rw [hv] at ht
          simp only [except_map_ok] at ht
          exact TypedNode.noConfusion (Except.ok.inj ht)
      rw [if_neg k2] at ht
      by_cases k3 : n.kind = "test"
      · rw [if_pos k3] at ht
        cases hv : validateTestData n.data with
        | error e => rw [hv] at ht; exact Except.noConfusion ht
        | ok td =>
          rw [hv] at ht
          simp only [except_map_ok] at ht
          exact TypedNode.noConfusion (Except.ok.inj ht)
      rw [if_neg k3] at ht
      by_cases k4 : n.kind = "job"
      · rw [if_pos k4] at ht
        cases hv : validateTestData n.data with
        | error e => rw [hv] at ht; exact Except.noConfusion ht
        | ok td =>
          rw [hv] at ht
          simp only [except_map_ok] at ht
          exact TypedNode.noConfusion (Except.ok.inj ht)
      rw [if_neg k4] at ht
      by_cases k5 : n.kind = "regression"
      · rw [if_pos k5] at ht
        cases hv : validateRegressionData n.data with
        | error e => rw [hv] at ht; exact Except.noConfusion ht
        | ok rd =>
          rw [hv] at ht
          simp only [except_map_ok] at ht
          exact TypedNode.noConfusion (Except.ok.inj ht)
      rw [if_neg k5] at ht
      exact Except.noConfusion ht
    rw [if_pos k1] at ht
    cases hv : validateCheckoutData n.data with
    | error e => rw [hv] at ht; exact Except.noConfusion ht
    | ok cd2 =>
      rw [hv] at ht
      simp only [except_map_ok] at ht
      have hco := Except.ok.inj ht
      injection hco with hb hcd
      subst hb
      subst hcd
      rw [hd] at hv
      have hkr := validateCheckoutData_kr d cd2 hv
      constructor
      · intro hnone
        simp only [vOptRevision, hnone] at hkr
        exact (Except.ok.inj hkr).symm
      · intro v hsome
        simp only [vOptRevision, hsome] at hkr
        cases hpr : parseRevision v with
        | error e =>
          simp only [hpr, except_map_error] at hkr
          exact Except.noConfusion hkr
        | ok r =>
          simp only [hpr, except_map_ok] at hkr
          exact ⟨r, rfl, (Except.ok.inj hkr).symm⟩

/-- Fixture node with an unregistered kind. -/
def c8UnknownNode : GNode :=
  { kind := "nodegroup", name := "group-1", path := ["group-1"] }

/-- Fixture checkout node with a valid `kernel_revision` document. -/
def c8GoodNode : GNode :=
  { kind := "checkout", name := "checkout-main", path := ["checkout-main"],
    data := some
      [("kernel_revision", .dict
        [("tree", .str "mainline"),
         ("url", .str "https://git.kernel.org/linux.git"),
         ("branch", .str "master"),
         ("commit", .str "3a1b2c")])] }

/-- Witness for the amended C8: the unsupported-kind branch and the
checkout branch with a present kernel revision, both via the theorem. -/
theorem c8_kind_dispatch_witness :
    parse_node_obj c8UnknownNode = .error (.unsupportedKind "nodegroup") ∧
    ∃ r, parseRevision (.dict
        [("tree", .str "mainline"),
         ("url", .str "https://git.kernel.org/linux.git"),
         ("branch", .str "master"),
         ("commit", .str "3a1b2c")]) = .ok r ∧
      ({ kernel_revision := some
          { tree := "mainline", url := "https://git.kernel.org/linux.git",
            branch := "master", commit := "3a1b2c" } } :
        CheckoutData).kernel_revision = some r :=
  ⟨(c8_kind_dispatch c8UnknownNode).1 (by decide),
   ((c8_kind_dispatch c8GoodNode).2.2 c8GoodNode
      { kernel_revision := some
          { tree := "mainline", url := "https://git.kernel.org/linux.git",
            branch := "master", commit := "3a1b2c" } }
      rfl _ rfl).2 _ rfl⟩

/-! ### C3: operator extraction

Characterization of `_translate_operators` on conflict-free inputs.  The
development needs that a key splitting as `[p, o]` is uniquely determined
by the pair `(p, o)` (namely `p ++ "__" ++ o`), proved via a join/split
round trip on character lists. -/

/-- Rejoin split parts with the two-underscore separator. -/
def joinUU : List (List Char) → List Char
  | [] => []
  | [x] => x
  | x :: y :: xs => x ++ '_' :: '_' :: joinUU (y :: xs)

theorem splitUUAux_ne_nil : ∀ (l acc : List Char), splitUUAux l acc ≠ []
  | [], _ => by simp [splitUUAux]
  | [c], _ => by simp [splitUUAux]
  | c1 :: c2 :: rest, acc => by
    rw [splitUUAux]
    by_cases h : c1 = '_' ∧ c2 = '_'
    · rw [if_pos h]
      exact List.cons_ne_nil _ _
    · rw [if_neg h]
      exact splitUUAux_ne_nil (c2 :: rest) (c1 :: acc)

theorem joinUU_cons (x : List Char) (xs : List (List Char)) (h : xs ≠ []) :
    joinUU (x :: xs) = x ++ '_' :: '_' :: joinUU xs := by
  cases xs with
  | nil => exact absurd rfl h
  | cons y ys => rw [joinUU]

theorem joinUU_splitUUAux : ∀ (l acc : List Char),
    joinUU (splitUUAux l acc) = acc.reverse ++ l
  | [], acc => by simp [splitUUAux, joinUU]
  | [c], acc => by simp [splitUUAux, joinUU]
  | c1 :: c2 :: rest, acc => by
    rw [splitUUAux]
    by_cases h : c1 = '_' ∧ c2 = '_'
    · rw [if_pos h, joinUU_cons _ _ (splitUUAux_ne_nil rest []),
        joinUU_splitUUAux rest []]
      obtain ⟨rfl, rfl⟩ := h
      simp
    · rw [if_neg h, joinUU_splitUUAux (c2 :: rest) (c1 :: acc)]
      simp

theorem string_eq_of_data (a b : String) (h : a.data = b.data) : a = b := by
  cases a
  cases b
  cases h
  rfl

theorem splitBase?_split (k p o : String)
    (h : splitBase? k = some (p, o)) : pySplitUU k = [p, o] := by
  simp only [splitBase?] at h
  rcases hsp : pySplitUU k with _ | ⟨x, _ | ⟨y, _ | ⟨z, t⟩⟩⟩
  · rw [hsp] at h; exact Option.noConfusion h
  · rw [hsp] at h; exact Option.noConfusion h
  · rw [hsp] at h
    simp only [Option.some.injEq, Prod.mk.injEq] at h
    rw [h.1, h.2]
  · rw [hsp] at h; exact Option.noConfusion h

theorem pySplitUU_two_data (k p o : String) (h : pySplitUU k = [p, o]) :
    k.data = p.data ++ '_' :: '_' :: o.data := by
  have hj := joinUU_splitUUAux k.data []
  unfold pySplitUU at h
  rcases hl : splitUUAux k.data [] with _ | ⟨a, _ | ⟨b, _ | ⟨c, t⟩⟩⟩ <;>
    rw [hl] at h <;> simp at h
  obtain ⟨hp, ho⟩ := h
  rw [hl] at hj
  have hab : a ++ '_' :: '_' :: b = k.data := by simpa [joinUU] using hj
  rw [← hp, ← ho]
  exact hab.symm

theorem splitBase?_key_inj (k1 k2 p o : String)
    (h1 : splitBase? k1 = some (p, o))
    (h2 : splitBase? k2 = some (p, o)) : k1 = k2 :=
  string_eq_of_data _ _ (by
    rw [pySplitUU_two_data k1 p o (splitBase?_split _ _ _ h1),
      pySplitUU_two_data k2 p o (splitBase?_split _ _ _ h2)])

/-- True when the key has the `field__operator` form. -/
def isOpKey (k : String) : Bool := (splitBase? k).isSome

/-- The key a translated entry is stored under: the base field for an
operator-suffixed key, the key itself otherwise. -/
def outKey (k : String) : String :=
  match splitBase? k with
  | some (p, _) => p
  | none => k

/-- All operator/value pairs contributed to base field `a` by the
operator-suffixed keys of the input, in input order. -/
def opsFor (a : String) (ps : List (String × Value)) :
    List (String × Value) :=
  ps.filterMap fun kv =>
    match splitBase? kv.1 with
    | some (p, o) => if p = a then some (o, kv.2) else none
    | none => none

/-- Input mappings on which the operator-extraction loop is conflict-free:
keys are pairwise distinct (as in a real dict) and no base field of an
operator-suffixed key also occurs as a key of the mapping. -/
def goodParams (ps : List (String × Value)) : Prop :=
  (ps.map Prod.fst).Nodup ∧
  ∀ kv ∈ ps, isOpKey kv.1 = true → ∀ kv2 ∈ ps, kv2.1 ≠ outKey kv.1

instance (ps : List (String × Value)) : Decidable (goodParams ps) := by
  unfold goodParams
  infer_instance

theorem outKey_op (k p o : String) (h : splitBase? k = some (p, o)) :
    outKey k = p := by
  simp [outKey, h]

theorem outKey_direct (k : String) (h : splitBase? k = none) :
    outKey k = k := by
  simp [outKey, h]

theorem opsFor_append (a : String) (ps qs : List (String × Value)) :
    opsFor a (ps ++ qs) = opsFor a ps ++ opsFor a qs := by
  simp [opsFor, List.filterMap_append]

theorem opsFor_single_direct (a : String) (kv : String × Value)
    (h : splitBase? kv.1 = none) : opsFor a [kv] = [] := by
  simp [opsFor, h]

theorem opsFor_single_op_eq (a : String) (kv : String × Value)
    (o : String) (h : splitBase? kv.1 = some (a, o)) :
    opsFor a [kv] = [(o, kv.2)] := by
  simp [opsFor, h]

theorem opsFor_single_op_ne (a : String) (kv : String × Value)
    (p o : String) (h : splitBase? kv.1 = some (p, o)) (hne : p ≠ a) :
    opsFor a [kv] = [] := by
  simp [opsFor, h, hne]

theorem opsFor_mem_key (a : String) (ps : List (String × Value))
    (o : String) (v : Value) (h : (o, v) ∈ opsFor a ps) :
    ∃ kv ∈ ps, splitBase? kv.1 = some (a, o) ∧ kv.2 = v := by
  simp only [opsFor, List.mem_filterMap] at h
  obtain ⟨kv, hmem, hf⟩ := h
  rcases hsb : splitBase? kv.1 with _ | ⟨p2, o2⟩
  · rw [hsb] at hf
    exact Option.noConfusion hf
  · simp only [hsb] at hf
    by_cases hpa : p2 = a
    · rw [if_pos hpa] at hf
      simp only [Option.some.injEq, Prod.mk.injEq] at hf
      refine ⟨kv, hmem, ?_, hf.2⟩
      rw [hsb, hpa, hf.1]
    · rw [if_neg hpa] at hf
      exact Option.noConfusion hf

theorem opsFor_mem_of (a : String) (ps : List (String × Value))
    (kv : String × Value) (o : String) (hmem : kv ∈ ps)
    (h : splitBase? kv.1 = some (a, o)) : (o, kv.2) ∈ opsFor a ps := by
  simp only [opsFor, List.mem_filterMap]
  exact ⟨kv, hmem, by simp [h]⟩

theorem translate_operators_snoc (ps : List (String × Value))
    (kv : String × Value) (d : List (String × Value))
    (h : translate_operators ps = .ok d) :
    translate_operators (ps ++ [kv]) = opStep d kv := by
  unfold translate_operators at *
  rw [foldlM_append_except, h]
  show [kv].foldlM opStep d = _
  simp [List.foldlM]

theorem translate_operators_inv (ps : List (String × Value)) :
    goodParams ps →
    ∃ d, translate_operators ps = .ok d ∧
      (∀ a, a ∉ ps.map (fun kv => outKey kv.1) → pyGet d a = none) ∧
      (∀ kv ∈ ps, isOpKey kv.1 = false → pyGet d kv.1 = some kv.2) ∧
      (∀ a, opsFor a ps ≠ [] →
        pyGet d a = some (.dict (opsFor a ps))) := by
  induction ps using List.reverseRecOn with
  | nil =>
    intro _
    exact ⟨[], rfl, fun a _ => rfl, fun kv hmem => absurd hmem (by simp),
      fun a hops => absurd rfl hops⟩
  | append_singleton ps kv ih =>
    intro hg
    obtain ⟨hnd, hbase⟩ := hg
    rw [List.map_append] at hnd
    obtain ⟨hnd', _, hdisj⟩ := List.nodup_append.mp hnd
    have hknotin : kv.1 ∉ ps.map Prod.fst :=
      fun hmem => hdisj hmem (by simp)
    have hg' : goodParams ps :=
      ⟨hnd', fun kv2 h2 hop kv3 h3 =>
        hbase kv2 (List.mem_append_left _ h2) hop kv3
          (List.mem_append_left _ h3)⟩
    obtain ⟨d, hok, hdom, hdir, hops⟩ := ih hg'
    have hsnoc := translate_operators_snoc ps kv d hok
    -- keys of `ps` never equal a base field of an operator key of
    -- `ps ++ [kv]`, and conversely
    rcases hsb : splitBase? kv.1 with _ | ⟨p, o⟩
    · -- direct key: stored under itself
      have hop : isOpKey kv.1 = false := by simp [isOpKey, hsb]
      have hkdom : kv.1 ∉ ps.map (fun kv2 => outKey kv2.1) := by
        intro hmem
        obtain ⟨kv2, hmem2, hout⟩ := List.mem_map.mp hmem
        rcases hsb2 : splitBase? kv2.1 with _ | ⟨p2, o2⟩
        · rw [outKey_direct _ hsb2] at hout
          exact hknotin (hout ▸ List.mem_map_of_mem Prod.fst hmem2)
        · exact hbase kv2 (List.mem_append_left _ hmem2)
            (by simp [isOpKey, hsb2]) kv (by simp) hout.symm
      have hnone : pyGet d kv.1 = none := hdom kv.1 hkdom
      have hset : pySet d kv.1 kv.2 = d ++ [(kv.1, kv.2)] :=
        pySet_not_mem d kv.1 kv.2
          (fun hmem => ((pyGet_eq_none_iff d kv.1).mp hnone) hmem)
      refine ⟨pySet d kv.1 kv.2, by rw [hsnoc]; simp [opStep, hsb, hnone],
        ?_, ?_, ?_⟩
      · intro a ha
        rw [List.map_append] at ha
        simp only [List.mem_append, not_or] at ha
        obtain ⟨ha1, ha2⟩ := ha
        have hakv : a ≠ kv.1 := by
          intro hh
          exact ha2 (by simp [hh, outKey_direct _ hsb])
        rw [pyGet_pySet_ne _ _ _ _ hakv]
        exact hdom a ha1
      · intro kv2 hmem2 hop2
        rcases List.mem_append.mp hmem2 with hmem2 | hmem2
        · have hne : kv2.1 ≠ kv.1 := by
            intro hh
            exact hknotin (hh ▸ List.mem_map_of_mem Prod.fst hmem2)
          rw [pyGet_pySet_ne _ _ _ _ hne]
          exact hdir kv2 hmem2 hop2
        · obtain rfl := List.mem_singleton.mp hmem2
          exact pyGet_pySet_same _ _ _
      · intro a hopsne
        rw [opsFor_append, opsFor_single_direct _ _ hsb,
          List.append_nil] at hopsne ⊢
        have hane : a ≠ kv.1 := by
          rintro rfl
          obtain ⟨⟨o2, v2⟩, hmem2⟩ := List.exists_mem_of_ne_nil _ hopsne
          obtain ⟨kv2, hmem2, hsb2, _⟩ := opsFor_mem_key _ _ _ _ hmem2
          exact hbase kv2 (List.mem_append_left _ hmem2)
            (by simp [isOpKey, hsb2]) kv (by simp)
            (outKey_op _ _ _ hsb2).symm
        rw [pyGet_pySet_ne _ _ _ _ hane]
        exact hops a hopsne
    · -- operator-suffixed key: accumulated under the base field `p`
      have hop : isOpKey kv.1 = true := by simp [isOpKey, hsb]
      have hpnot : ∀ kv2 ∈ ps ++ [kv], kv2.1 ≠ p := by
        intro kv2 h2
        have := hbase kv (by simp) hop kv2 h2
        rwa [outKey_op _ _ _ hsb] at this
      have hnewops : opsFor p (ps ++ [kv]) = opsFor p ps ++ [(o, kv.2)] := by
        rw [opsFor_append, opsFor_single_op_eq p kv o hsb]
      have hANe : ∀ a, a ≠ p → opsFor a (ps ++ [kv]) = opsFor a ps := by
        intro a hane
        rw [opsFor_append, opsFor_single_op_ne a kv p o hsb
          (fun hh => hane hh.symm), List.append_nil]
      -- in both sub-cases the step stores
      -- `.dict (opsFor p ps ++ [(o, kv.2)])` under `p`
      have hmain : opStep d kv =
          .ok (pySet d p (.dict (opsFor p ps ++ [(o, kv.2)]))) := by
        rcases hcase : opsFor p ps with _ | ⟨kv0, l0⟩
        · have hpd : pyGet d p = none := by
            apply hdom
            intro hmem
            obtain ⟨kv2, hmem2, hout⟩ := List.mem_map.mp hmem
            rcases hsb2 : splitBase? kv2.1 with _ | ⟨p2, o2⟩
            · rw [outKey_direct _ hsb2] at hout
              exact hpnot kv2 (List.mem_append_left _ hmem2) hout
            · rw [outKey_op _ _ _ hsb2] at hout
              have hmm : (o2, kv2.2) ∈ opsFor p2 ps :=
                opsFor_mem_of _ _ _ _ hmem2 hsb2
              rw [hout, hcase] at hmm
              exact absurd hmm (by simp)
          simp [opStep, hsb, hpd]
        · have hpd : pyGet d p = some (.dict (opsFor p ps)) :=
            hops p (by rw [hcase]; exact List.cons_ne_nil _ _)
          have htr : truthy (.dict (opsFor p ps)) = true := by
            rw [hcase]
            simp [truthy]
          have honotin : o ∉ (opsFor p ps).map Prod.fst := by
            intro hmem
            obtain ⟨⟨o2, v2⟩, hmem2, ho2⟩ := List.mem_map.mp hmem
            simp only at ho2
            subst ho2
            obtain ⟨kv2, hmem2, hsb2, _⟩ := opsFor_mem_key _ _ _ _ hmem2
            have : kv2.1 = kv.1 := splitBase?_key_inj _ _ _ _ hsb2 hsb
            exact hknotin (this ▸ List.mem_map_of_mem Prod.fst hmem2)
          have hsetops : pySet (opsFor p ps) o kv.2 =
              opsFor p ps ++ [(o, kv.2)] :=
            pySet_not_mem _ _ _ honotin
          simp only [opStep, hsb, hpd, htr, hsetops, if_pos]
          rw [hcase]
      refine ⟨pySet d p (.dict (opsFor p ps ++ [(o, kv.2)])),
        by rw [hsnoc, hmain], ?_, ?_, ?_⟩
      · intro a ha
        rw [List.map_append] at ha
        simp only [List.mem_append, not_or] at ha
        obtain ⟨ha1, ha2⟩ := ha
        have hap : a ≠ p := by
          intro hh
          exact ha2 (by simp [hh, outKey_op _ _ _ hsb])
        rw [pyGet_pySet_ne _ _ _ _ hap]
        exact hdom a ha1
      · intro kv2 hmem2 hop2
        rcases List.mem_append.mp hmem2 with hmem2 | hmem2
        · have hne : kv2.1 ≠ p := hpnot kv2 (List.mem_append_left _ hmem2)
          rw [pyGet_pySet_ne _ _ _ _ hne]
          exact hdir kv2 hmem2 hop2
        · obtain rfl := List.mem_singleton.mp hmem2
          rw [hop] at hop2
          exact Bool.noConfusion hop2
      · intro a hopsne
        by_cases hap : a = p
        · subst hap
          rw [hnewops]
          exact pyGet_pySet_same _ _ _
        · rw [hANe a hap] at hopsne ⊢
          rw [pyGet_pySet_ne _ _ _ _ hap]
          exact hops a hopsne

/-- Counterexample to C3 as stated: the flat mapping
`{"a": "x", "a__ne": "y"}` is not translated at all — the stage raises
`AttributeError` (attempting `dict.update` on the string stored under `a`)
— so it is not the case that for every flat input mapping each
`field__operator` key is nested and each bare key becomes a direct
equality entry. -/
theorem c3_counterexample :
    translate_operators [("a", .str "x"), ("a__ne", .str "y")] =
      .error .attributeError := rfl

/-- C3 as amended: for every flat input mapping with pairwise-distinct keys
in which no base field of an operator-suffixed key also occurs as a key of
the mapping, operator extraction succeeds; every key without the
`field__operator` form maps to a direct equality entry, and the
`field__operator` keys of a common base field accumulate into one
sub-mapping under that base field holding all its operator/value pairs in
input order. -/
theorem c3_operator_extraction (ps : List (String × Value))
    (hg : goodParams ps) :
    ∃ d, translate_operators ps = .ok d ∧
      (∀ kv ∈ ps, isOpKey kv.1 = false → pyGet d kv.1 = some kv.2) ∧
      (∀ kv ∈ ps, ∀ p o, splitBase? kv.1 = some (p, o) →
        pyGet d p = some (.dict (opsFor p ps))) := by
  obtain ⟨d, hok, _, hdir, hops⟩ := translate_operators_inv ps hg
  refine ⟨d, hok, hdir, ?_⟩
  intro kv hmem p o hsb
  refine hops p ?_
  have hin := opsFor_mem_of p ps kv o hmem hsb
  intro hnil
  rw [hnil] at hin
  exact absurd hin (by simp)

/-- Witness for the amended C3: the mapping with keys `a__ne`, `a__lt`
and `b` satisfies the hypotheses, `a__ne`/`a__lt` accumulate under `a`,
and `b` is a direct entry. -/
theorem c3_operator_extraction_witness :
    ∃ d, translate_operators
        [("a__ne", .str "1"), ("a__lt", .str "2"), ("b", .str "3")] =
      .ok d ∧
      (∀ kv ∈ [(("a__ne" : String), Value.str "1"),
               (("a__lt" : String), Value.str "2"),
               (("b" : String), Value.str "3")],
        isOpKey kv.1 = false → pyGet d kv.1 = some kv.2) ∧
      (∀ kv ∈ [(("a__ne" : String), Value.str "1"),
               (("a__lt" : String), Value.str "2"),
               (("b" : String), Value.str "3")],
        ∀ p o, splitBase? kv.1 = some (p, o) →
          pyGet d p = some (.dict (opsFor p
            [(("a__ne" : String), Value.str "1"),
             (("a__lt" : String), Value.str "2"),
             (("b" : String), Value.str "3")]))) :=
  c3_operator_extraction
    [("a__ne", .str "1"), ("a__lt", .str "2"), ("b", .str "3")] (by decide)

/-! ### C7: re-translation of an already-translated filter

Structural lemmas about the three stages, used to settle the idempotence
property. -/

theorem mkObjectId_ok_shape (v w : Value) (h : mkObjectId v = .ok w) :
    ∃ s, w = .oid s := by
  cases v <;> simp only [mkObjectId] at h
  case oid s => exact ⟨s, (Except.ok.inj h).symm⟩
  case str s =>
    by_cases hc : (s.data.length = 24 && s.data.all isHexDigit) = true
    · rw [if_pos hc] at h
      exact ⟨s, (Except.ok.inj h).symm⟩
    · rw [if_neg hc] at h
      exact Except.noConfusion h
  all_goals exact Except.noConfusion h

theorem nodup_keys_pySet (d : List (String × Value)) (k : String) (v : Value)
    (h : (d.map Prod.fst).Nodup) : ((pySet d k v).map Prod.fst).Nodup := by
  by_cases hm : k ∈ d.map Prod.fst
  · rw [keys_pySet_mem _ _ _ hm]
    exact h
  · rw [pySet_not_mem _ _ _ hm, List.map_append]
    simp [List.nodup_append, h, hm]

theorem nodup_keys_dictUpdate (ps d : List (String × Value))
    (h : (d.map Prod.fst).Nodup) :
    ((dictUpdate d ps).map Prod.fst).Nodup := by
  induction ps generalizing d with
  | nil => exact h
  | cons kv rest ih =>
    rw [dictUpdate_cons]
    exact ih _ (nodup_keys_pySet _ _ _ h)

theorem opStep_ok_shape (acc : List (String × Value)) (kv : String × Value)
    (d1 : List (String × Value)) (h : opStep acc kv = .ok d1) :
    ∃ k v, d1 = pySet acc k v := by
  unfold opStep at h
  rcases hsb : splitBase? kv.1 with _ | ⟨p, o⟩
  · simp only [hsb] at h
    exact ⟨kv.1, kv.2, (Except.ok.inj h).symm⟩
  · simp only [hsb] at h
    cases hg : pyGet acc p with
    | none =>
      simp only [hg] at h
      exact ⟨p, _, (Except.ok.inj h).symm⟩
    | some ev =>
      simp only [hg] at h
      by_cases ht : truthy ev = true
      · rw [if_pos ht] at h
        cases ev <;> try exact Except.noConfusion h
        exact ⟨p, _, (Except.ok.inj h).symm⟩
      · rw [if_neg ht] at h
        exact ⟨p, _, (Except.ok.inj h).symm⟩

theorem nodup_keys_cons (kv : String × Value)
    (rest : List (String × Value))
    (h : ((kv :: rest).map Prod.fst).Nodup) :
    kv.1 ∉ rest.map Prod.fst ∧ (rest.map Prod.fst).Nodup := by
  rw [List.map_cons] at h
  exact List.nodup_cons.mp h

theorem ops_ok_nodup_aux : ∀ (ps acc d : List (String × Value)),
    (acc.map Prod.fst).Nodup → ps.foldlM opStep acc = .ok d →
    (d.map Prod.fst).Nodup
  | [], acc, d, hnd, h => by
    have : acc = d := Except.ok.inj h
    rwa [← this]
  | kv :: rest, acc, d, hnd, h => by
    rw [List.foldlM_cons] at h
    cases hstep : opStep acc kv with
    | error e =>
      rw [hstep] at h
      exact Except.noConfusion h
    | ok acc2 =>
      rw [hstep] at h
      simp only [except_bind_ok] at h
      obtain ⟨k, v, rfl⟩ := opStep_ok_shape acc kv acc2 hstep
      exact ops_ok_nodup_aux rest _ d (nodup_keys_pySet _ _ _ hnd) h

theorem translate_operators_ok_nodup (ps d : List (String × Value))
    (h : translate_operators ps = .ok d) : (d.map Prod.fst).Nodup :=
  ops_ok_nodup_aux ps [] d (by simp) h

theorem splitBase?_none_of_isOpKey_false (k : String)
    (h : isOpKey k = false) : splitBase? k = none := by
  unfold isOpKey at h
  cases hsb : splitBase? k with
  | none => rfl
  | some po => rw [hsb] at h; simp at h

theorem ops_id_aux : ∀ (l acc : List (String × Value)),
    (∀ kv ∈ l, isOpKey kv.1 = false) →
    (∀ kv ∈ l, kv.1 ∉ acc.map Prod.fst) →
    (l.map Prod.fst).Nodup →
    l.foldlM opStep acc = .ok (acc ++ l)
  | [], acc, _, _, _ => by
    rw [List.append_nil]
    rfl
  | kv :: rest, acc, hop, hfresh, hnd => by
    rw [List.foldlM_cons]
    have hsb : splitBase? kv.1 = none :=
      splitBase?_none_of_isOpKey_false _ (hop kv (by simp))
    have hset : pySet acc kv.1 kv.2 = acc ++ [(kv.1, kv.2)] :=
      pySet_not_mem _ _ _ (hfresh kv (by simp))
    have hstep : opStep acc kv = .ok (acc ++ [(kv.1, kv.2)]) := by
      simp only [opStep, hsb, hset]
    rw [hstep]
    simp only [except_bind_ok]
    rw [ops_id_aux rest (acc ++ [(kv.1, kv.2)])
      (fun kv2 h2 => hop kv2 (by simp [h2]))
      ?_ (nodup_keys_cons kv rest hnd).2]
    · simp
    · intro kv2 h2
      rw [List.map_append, List.mem_append]
      rintro (hin | hin)
      · exact hfresh kv2 (by simp [h2]) hin
      · simp only [List.map_cons, List.map_nil, List.mem_singleton] at hin
        exact (nodup_keys_cons kv rest hnd).1
          (hin ▸ List.mem_map_of_mem Prod.fst h2)

theorem translate_operators_id (l : List (String × Value))
    (hop : ∀ kv ∈ l, isOpKey kv.1 = false)
    (hnd : (l.map Prod.fst).Nodup) :
    translate_operators l = .ok l := by
  unfold translate_operators
  rw [ops_id_aux l [] hop (by simp) hnd]
  rfl

theorem oids_skip_aux : ∀ (t acc : List (String × Value)),
    "parent" ∉ t.map Prod.fst →
    t.foldlM
      (fun acc2 kv =>
        if kv.1 ∈ nodeObjectIdFields then do
          let w ← mkObjectId kv.2
          Except.ok (acc2 ++ [(kv.1, w)])
        else Except.ok acc2) acc = .ok acc
  | [], acc, _ => rfl
  | kv :: rest, acc, h => by
    simp only [List.map_cons, List.mem_cons, not_or] at h
    rw [List.foldlM_cons,
      if_neg (by simp [nodeObjectIdFields]; exact fun hh => h.1 hh.symm)]
    simp only [except_bind_ok]
    exact oids_skip_aux rest acc (by simpa using h.2)

theorem oids_first_aux : ∀ (t acc : List (String × Value)) (v w : Value),
    (t.map Prod.fst).Nodup → pyGet t "parent" = some v →
    mkObjectId v = .ok w →
    t.foldlM
      (fun acc2 kv =>
        if kv.1 ∈ nodeObjectIdFields then do
          let w2 ← mkObjectId kv.2
          Except.ok (acc2 ++ [(kv.1, w2)])
        else Except.ok acc2) acc = .ok (acc ++ [("parent", w)])
  | [], _, v, w, _, hget, _ => by simp [pyGet] at hget
  | kv :: rest, acc, v, w, hnd, hget, hmk => by
    rw [List.foldlM_cons]
    by_cases hk : kv.1 = "parent"
    · simp only [pyGet, if_pos hk] at hget
      obtain rfl := Option.some.inj hget
      rw [if_pos (by simp [nodeObjectIdFields, hk]), hmk]
      simp only [except_bind_ok, hk]
      have hrest : "parent" ∉ rest.map Prod.fst :=
        fun hin => (nodup_keys_cons kv rest hnd).1 (hk ▸ hin)
      exact oids_skip_aux rest _ hrest
    · simp only [pyGet, if_neg hk] at hget
      rw [if_neg (by simp [nodeObjectIdFields]; exact fun hh => hk hh)]
      simp only [except_bind_ok]
      exact oids_first_aux rest acc v w
        (nodup_keys_cons kv rest hnd).2 hget hmk

theorem oids_inv_aux : ∀ (t acc pairs : List (String × Value)),
    (t.map Prod.fst).Nodup →
    t.foldlM
      (fun acc2 kv =>
        if kv.1 ∈ nodeObjectIdFields then do
          let w ← mkObjectId kv.2
          Except.ok (acc2 ++ [(kv.1, w)])
        else Except.ok acc2) acc = .ok pairs →
    (pyGet t "parent" = none ∧ pairs = acc) ∨
    (∃ v w, pyGet t "parent" = some v ∧ mkObjectId v = .ok w ∧
      pairs = acc ++ [("parent", w)])
  | [], acc, pairs, _, h => Or.inl ⟨rfl, (Except.ok.inj h).symm⟩
  | kv :: rest, acc, pairs, hnd, h => by
    rw [List.foldlM_cons] at h
    by_cases hk : kv.1 = "parent"
    · rw [if_pos (by simp [nodeObjectIdFields, hk])] at h
      cases hmk : mkObjectId kv.2 with
      | error e =>
        rw [hmk] at h
        exact Except.noConfusion h
      | ok w =>
        rw [hmk] at h
        simp only [except_bind_ok] at h
        have hrest : "parent" ∉ rest.map Prod.fst :=
          fun hin => (nodup_keys_cons kv rest hnd).1 (hk ▸ hin)
        rw [oids_skip_aux rest _ hrest] at h
        refine Or.inr ⟨kv.2, w, ?_, hmk, ?_⟩
        · simp [pyGet, hk]
        · rw [← Except.ok.inj h, hk]
    · rw [if_neg (by simp [nodeObjectIdFields]; exact fun hh => hk hh)] at h
      simp only [except_bind_ok] at h
      rcases oids_inv_aux rest acc pairs
          (nodup_keys_cons kv rest hnd).2 h with
        ⟨h1, h2⟩ | ⟨v, w, h1, h2, h3⟩
      · exact Or.inl ⟨by simp [pyGet, hk, h1], h2⟩
      · exact Or.inr ⟨v, w, by simp [pyGet, hk, h1], h2, h3⟩

theorem ts_direct_keys (fields : List String)
    (acc : List (String × Value)) (k0 : String) (v0 : Value)
    (acc2 : List (String × Value))
    (h : (do
        let w ← fromisoformat v0
        Except.ok (pySet acc k0 w)) = .ok acc2)
    (hf : k0 ∈ fields) :
    ∀ k ∈ acc2.map Prod.fst,
      k ∈ acc.map Prod.fst ∨ (k = k0 ∧ k0 ∈ fields) := by
  cases hiso : fromisoformat v0 with
  | error e =>
    rw [hiso] at h
    exact absurd h (by simp)
  | ok w =>
    rw [hiso] at h
    simp only [except_bind_ok] at h
    intro k hk
    rw [← Except.ok.inj h] at hk
    by_cases hm : k0 ∈ acc.map Prod.fst
    · rw [keys_pySet_mem _ _ _ hm] at hk
      exact Or.inl hk
    · rw [pySet_not_mem _ _ _ hm, List.map_append] at hk
      rcases List.mem_append.mp hk with hk | hk
      · exact Or.inl hk
      · simp only [List.map_cons, List.map_nil, List.mem_singleton] at hk
        exact Or.inr ⟨hk, hf⟩

theorem tsInnerStep_ok_shape (k0 : String)
    (acc3 : List (String × Value)) (op : String × Value)
    (acc4 : List (String × Value)) (h : tsInnerStep k0 acc3 op = .ok acc4) :
    ∃ v1, acc4 = pySet acc3 k0 v1 := by
  unfold tsInnerStep at h
  cases hg : pyGet acc3 k0 with
  | none =>
    simp only [hg] at h
    cases hiso : fromisoformat op.2 with
    | error e => rw [hiso] at h; exact Except.noConfusion h
    | ok w =>
      rw [hiso] at h
      simp only [except_bind_ok] at h
      exact ⟨_, (Except.ok.inj h).symm⟩
  | some ev =>
    simp only [hg] at h
    by_cases ht : truthy ev = true
    · rw [if_pos ht] at h
      cases ev <;> try exact Except.noConfusion h
      cases hiso : fromisoformat op.2 with
      | error e => rw [hiso] at h; exact Except.noConfusion h
      | ok w =>
        rw [hiso] at h
        simp only [except_bind_ok] at h
        exact ⟨_, (Except.ok.inj h).symm⟩
    · rw [if_neg ht] at h
      cases hiso : fromisoformat op.2 with
      | error e => rw [hiso] at h; exact Except.noConfusion h
      | ok w =>
        rw [hiso] at h
        simp only [except_bind_ok] at h
        exact ⟨_, (Except.ok.inj h).symm⟩

theorem ts_inner_keys (k0 : String) :
    ∀ (l acc0 acc2 : List (String × Value)),
    l.foldlM (tsInnerStep k0) acc0 = .ok acc2 →
    ∀ k ∈ acc2.map Prod.fst, k ∈ acc0.map Prod.fst ∨ k = k0
  | [], acc0, acc2, h => fun k hk => Or.inl ((Except.ok.inj h) ▸ hk)
  | op :: rest, acc0, acc2, h => by
    rw [List.foldlM_cons] at h
    cases hstep : tsInnerStep k0 acc0 op with
    | error e =>
      rw [hstep] at h
      exact Except.noConfusion h
    | ok acc1 =>
      rw [hstep] at h
      simp only [except_bind_ok] at h
      obtain ⟨v1, rfl⟩ := tsInnerStep_ok_shape k0 acc0 op acc1 hstep
      intro k hk
      rcases ts_inner_keys k0 rest _ acc2 h k hk with hin | hkv
      · by_cases hm : k0 ∈ acc0.map Prod.fst
        · rw [keys_pySet_mem _ _ _ hm] at hin
          exact Or.inl hin
        · rw [pySet_not_mem _ _ _ hm, List.map_append] at hin
          rcases List.mem_append.mp hin with hin | hin
          · exact Or.inl hin
          · simp only [List.map_cons, List.map_nil,
              List.mem_singleton] at hin
            exact Or.inr hin
      · exact Or.inr hkv

theorem tsStep_ok_keys (fields : List String)
    (acc : List (String × Value)) (kv : String × Value)
    (acc2 : List (String × Value))
    (h : tsStep fields acc kv = .ok acc2) :
    ∀ k ∈ acc2.map Prod.fst,
      k ∈ acc.map Prod.fst ∨ (k = kv.1 ∧ kv.1 ∈ fields) := by
  unfold tsStep at h
  by_cases hf : kv.1 ∈ fields
  · rw [if_pos hf] at h
    cases hv : kv.2 <;> simp only [hv] at h <;>
      first
        | exact ts_direct_keys fields acc kv.1 _ acc2 h hf
        | (intro k hk
           rcases ts_inner_keys kv.1 _ acc acc2 h k hk with hin | hkv
           · exact Or.inl hin
           · exact Or.inr ⟨hkv, hf⟩)
  · rw [if_neg hf] at h
    intro k hk
    exact Or.inl ((Except.ok.inj h) ▸ hk)

theorem ts_keys_aux : ∀ (l acc ts : List (String × Value))
    (fields : List String),
    l.foldlM (tsStep fields) acc = .ok ts →
    ∀ k ∈ ts.map Prod.fst, k ∈ acc.map Prod.fst ∨ k ∈ fields
  | [], acc, ts, fields, h => fun k hk =>
    Or.inl ((Except.ok.inj h) ▸ hk)
  | kv :: rest, acc, ts, fields, h => by
    rw [List.foldlM_cons] at h
    cases hstep : tsStep fields acc kv with
    | error e =>
      rw [hstep] at h
      exact absurd h (by simp)
    | ok acc2 =>
      rw [hstep] at h
      simp only [except_bind_ok] at h
      intro k hk
      rcases ts_keys_aux rest acc2 ts fields h k hk with hin | hin
      · rcases tsStep_ok_keys fields acc kv acc2 hstep k hin with
          hin2 | ⟨_, hin2⟩
        · exact Or.inl hin2
        · right
          rwa [← ‹k = kv.1›] at hin2
      · exact Or.inr hin

theorem ts_skip_aux : ∀ (l acc : List (String × Value))
    (fields : List String),
    (∀ kv ∈ l, kv.1 ∉ fields) →
    l.foldlM (tsStep fields) acc = .ok acc
  | [], _, _, _ => rfl
  | kv :: rest, acc, fields, h => by
    rw [List.foldlM_cons]
    have hstep : tsStep fields acc kv = .ok acc := by
      unfold tsStep
      rw [if_neg (h kv (by simp))]
    rw [hstep]
    simp only [except_bind_ok]
    exact ts_skip_aux rest acc fields (fun kv2 h2 => h kv2 (by simp [h2]))

theorem translate_timestamps_keys (l ts : List (String × Value))
    (fields : List String) (h : translate_timestamps fields l = .ok ts) :
    ∀ k ∈ ts.map Prod.fst, k ∈ fields := by
  intro k hk
  rcases ts_keys_aux l [] ts fields h k hk with hin | hin
  · simp at hin
  · exact hin

/-- Counterexample to C7 as stated: translating the valid flat filter
`{"created": "2024-01-01T00:00:00"}` once succeeds, but translating the
output again raises `TypeError` — `datetime.fromisoformat` rejects the
`datetime` object produced by the first pass — so translation is not
idempotent on already-typed input. -/
theorem c7_counterexample :
    nodeTranslateFields [("created", .str "2024-01-01T00:00:00")] =
      .ok [("created", .dt ⟨2024, 1, 1, 0, 0, 0⟩)] ∧
    nodeTranslateFields [("created", .dt ⟨2024, 1, 1, 0, 0, 0⟩)] =
      .error .typeError := ⟨rfl, rfl⟩

/-- C7 as amended: a second application of `translate_fields` returns its
own first output unchanged provided that output contains no
timestamp-designated keys (re-parsing an already-typed timestamp raises
`TypeError`, as the counterexample shows) and its keys are ordinary field
names (not of the `field__operator` form). -/
theorem c7_translate_fixpoint (ps d : List (String × Value))
    (h : nodeTranslateFields ps = .ok d)
    (hts : ∀ kv ∈ d, kv.1 ∉ nodeTimestampFields)
    (hop : ∀ kv ∈ d, isOpKey kv.1 = false) :
    nodeTranslateFields d = .ok d := by
  unfold nodeTranslateFields translate_fields at h
  cases hops : translate_operators ps with
  | error e => rw [hops] at h; exact Except.noConfusion h
  | ok t =>
  rw [hops] at h
  simp only [except_bind_ok] at h
  cases hoids : translate_object_ids nodeObjectIdFields t with
  | error e => rw [hoids] at h; exact Except.noConfusion h
  | ok pairs =>
  rw [hoids] at h
  simp only [except_bind_ok] at h
  cases hts1 : translate_timestamps nodeTimestampFields
      (dictUpdate t pairs) with
  | error e => rw [hts1] at h; exact Except.noConfusion h
  | ok ts =>
  rw [hts1] at h
  simp only [except_bind_ok] at h
  have hd : d = dictUpdate (dictUpdate t pairs) ts := (Except.ok.inj h).symm
  have hndt : (t.map Prod.fst).Nodup := translate_operators_ok_nodup ps t hops
  have hndd : (d.map Prod.fst).Nodup := by
    rw [hd]
    exact nodup_keys_dictUpdate _ _ (nodup_keys_dictUpdate _ _ hndt)
  have hops2 : translate_operators d = .ok d :=
    translate_operators_id d hop hndd
  -- the `parent` entry of `d`, if any, already holds an `ObjectId`
  have hpd2 : pyGet d "parent" = none ∨
      ∃ s, pyGet d "parent" = some (Value.oid s) := by
    have hpar_not_ts : "parent" ∉ ts.map Prod.fst := by
      intro hin
      have hmem := translate_timestamps_keys _ _ _ hts1 _ hin
      simp [nodeTimestampFields] at hmem
    have heq : pyGet d "parent" = pyGet (dictUpdate t pairs) "parent" := by
      rw [hd]
      exact pyGet_dictUpdate_not_mem ts _ _ hpar_not_ts
    rcases oids_inv_aux t [] pairs hndt hoids with
      ⟨hno, hpairs⟩ | ⟨v, w0, hv, hmk, hpairs⟩
    · left
      rw [heq, hpairs, dictUpdate_nil]
      exact hno
    · right
      obtain ⟨s, rfl⟩ := mkObjectId_ok_shape v w0 hmk
      refine ⟨s, ?_⟩
      rw [heq, hpairs]
      simp only [List.nil_append, dictUpdate_cons, dictUpdate_nil]
      exact pyGet_pySet_same t "parent" _
  unfold nodeTranslateFields translate_fields
  rw [hops2]
  simp only [except_bind_ok]
  rcases hpd2 with hpd | ⟨s, hpd⟩
  · rw [show translate_object_ids nodeObjectIdFields d = .ok [] from
      oids_skip_aux d [] ((pyGet_eq_none_iff d "parent").mp hpd)]
    simp only [except_bind_ok, dictUpdate_nil]
    rw [show translate_timestamps nodeTimestampFields d = .ok [] from
      ts_skip_aux d [] nodeTimestampFields hts]
    simp only [except_bind_ok, dictUpdate_nil]
  · rw [show translate_object_ids nodeObjectIdFields d =
        .ok [("parent", Value.oid s)] from
      oids_first_aux d [] (Value.oid s) (Value.oid s) hndd hpd rfl]
    simp only [except_bind_ok]
    rw [show dictUpdate d [("parent", Value.oid s)] = d from by
      rw [dictUpdate_cons, dictUpdate_nil]
      exact pySet_self d _ _ hpd]
    rw [show translate_timestamps nodeTimestampFields d = .ok [] from
      ts_skip_aux d [] nodeTimestampFields hts]
    simp only [except_bind_ok, dictUpdate_nil]

/-- Witness for the amended C7: a filter over `name`, `parent` and `state`
translates to a typed filter (the parent id coerced to an `ObjectId`) that
a second translation returns unchanged. -/
theorem c7_translate_fixpoint_witness :
    nodeTranslateFields
        [("name", .str "job-x"),
         ("parent", .oid "ffffffffffffffffffffffff"),
         ("state", .str "done")] =
      .ok [("name", .str "job-x"),
           ("parent", .oid "ffffffffffffffffffffffff"),
           ("state", .str "done")] :=
  c7_translate_fixpoint
    [("name", .str "job-x"), ("parent", .str "ffffffffffffffffffffffff"),
     ("state", .str "done")]
    [("name", .str "job-x"), ("parent", .oid "ffffffffffffffffffffffff"),
     ("state", .str "done")]
    rfl (by decide) (by decide)

end KernelCI
